import Mathlib

/-!
Verification of the package-cache-automation script
(`scripts/package-cache-automation.js` of Opentrons/package-mirror).

The script is shallowly embedded: every external effect (the GitHub API,
HTTP downloads, the scratch-directory file system, console logging) is made
explicit.  A `World` bundles the behaviour of the collaborators (responses
of the release backend and of the download servers, injected faults), a
`RunState` carries the mutable state the script observes (the releases that
exist on the backend, the files present in the scratch directory, the
ordered list of emitted events), and each function of the script becomes a
pure Lean function threading a `RunState`.
-/

/-! ### Tag sanitizer (`sanitizeTagName`, script lines 326-335) -/

/-- Character class of the JS regex `[^a-zA-Z0-9._-]` (negated):
`true` exactly on the characters the script keeps unchanged. -/
def validChar (c : Char) : Bool :=
  ('a' ≤ c && c ≤ 'z') || ('A' ≤ c && c ≤ 'Z') || ('0' ≤ c && c ≤ '9') ||
    c == '.' || c == '_' || c == '-'

/-- `.replace(/[^a-zA-Z0-9._-]/g, '-')`: every invalid character becomes a hyphen. -/
def replaceInvalid (l : List Char) : List Char :=
  l.map (fun c => if validChar c then c else '-')

/-- `.replace(/^[.-]/, '')`: the regex is anchored and not global, so exactly
one leading `.` or `-` is removed (when present). -/
def stripLeadDotDash : List Char → List Char
  | [] => []
  | c :: cs => if c == '.' || c == '-' then cs else c :: cs

/-- `.replace(/[.-]$/, '')`: one trailing `.` or `-` is removed (when present). -/
def stripTrailDotDash (l : List Char) : List Char :=
  (stripLeadDotDash l.reverse).reverse

/-- The global regex replacement of the script that rewrites every maximal
run of hyphens to a single hyphen.  Dropping the first of two adjacent
hyphens and recursing is equivalent to that replacement. -/
def collapseHyphens : List Char → List Char
  | [] => []
  | [c] => [c]
  | c :: d :: rest =>
    if c == '-' && d == '-' then collapseHyphens (d :: rest)
    else c :: collapseHyphens (d :: rest)

/-- `sanitizeTagName` (script lines 326-335): replace invalid characters,
strip one leading and one trailing `.`/`-`, collapse hyphen runs, then
`substring(0, 100)`. -/
def sanitizeTagName (s : String) : String :=
  String.mk ((collapseHyphens (stripTrailDotDash (stripLeadDotDash (replaceInvalid s.data)))).take 100)

/-! ### Downloader (`downloadFile`, script lines 232-278)

The response of the network for a given URL is an oracle
`server : String → HttpReply`.  `downloadFileGo` mirrors the recursive
`download` closure: the JS guard `redirectCount >= maxRedirects` is
expressed by the structurally decreasing `budget = maxRedirects - redirectCount`
reaching `0`; `redirectCount` is still carried for the error payload.
Besides the result, the list of URLs actually requested is returned. -/

/-- Reply of an HTTP GET: a status code with an optional `Location`
header, or a transport-level error (the `'error'` event). -/
inductive HttpReply where
  | response (statusCode : Nat) (location : Option String)
  | connError
deriving DecidableEq

/-- The failure modes of `downloadFile`. -/
inductive DlErr where
  | tooManyRedirects (n : Nat)
  | noLocation (statusCode : Nat)
  | badStatus (statusCode : Nat)
  | transport
deriving DecidableEq

/-- The recursive `download` closure of `downloadFile`.  Returns the
result together with the URLs requested, in order. -/
def downloadFileGo (server : String → HttpReply) :
    Nat → Nat → String → Except DlErr Unit × List String
  | 0, redirectCount, _ => (.error (.tooManyRedirects redirectCount), [])
  | budget + 1, redirectCount, url =>
    match server url with
    | .connError => (.error .transport, [url])
    | .response statusCode location =>
      if statusCode == 301 || statusCode == 302 then
        match location with
        | some redirectUrl =>
          let r := downloadFileGo server budget (redirectCount + 1) redirectUrl
          (r.1, url :: r.2)
        | none => (.error (.noLocation statusCode), [url])
      else if statusCode != 200 then (.error (.badStatus statusCode), [url])
      else (.ok (), [url])

/-- `const maxRedirects = 5` (script line 236). -/
def maxRedirects : Nat := 5

/-- `downloadFile(url, ...)`: run the download loop from a fresh redirect
counter.  The scratch-file effects are modelled at the call sites
(`downloadToFile` below), where the destination path is known. -/
def downloadFile (server : String → HttpReply) (url : String) :
    Except DlErr Unit × List String :=
  downloadFileGo server maxRedirects 0 url

example : sanitizeTagName "cypress-13.6.0" = "cypress-13.6.0" := by decide
example : sanitizeTagName "..a" = ".a" := by decide
example : sanitizeTagName ".a" = "a" := by decide
example : sanitizeTagName "--b" = "-b" := by decide
example : sanitizeTagName "a b!c" = "a-b-c" := by decide

/-! ### Artifact registry (`BINARY_PACKAGES`, script lines 58-168) and
manifest resolver (`getAllDependencies` / `getAllPackages`, lines 170-213) -/

/-- One target of a binary package: `{ os, platform, arch }`. -/
structure PlatformTarget where
  os : String
  platform : String
  arch : String
deriving DecidableEq

/-- A package configuration: display name, platform targets and the URL and
filename builders.  The synthesized npm builders of the script take only the
version; here all builders share one arity and the npm builders ignore the
platform and arch arguments. -/
structure PackageConfig where
  name : String
  platforms : List PlatformTarget
  getDownloadUrl : String → String → String → String
  getFilename : String → String → String → String

/-- The three desktop targets shared by every entry of `BINARY_PACKAGES`. -/
def desktopPlatforms : List PlatformTarget :=
  [⟨"Linux", "linux", "x64"⟩, ⟨"macOS", "darwin", "x64"⟩, ⟨"Windows", "win32", "x64"⟩]

/-- `BINARY_PACKAGES.cypress`. -/
def cypressConfig : PackageConfig where
  name := "Cypress"
  platforms := desktopPlatforms
  getDownloadUrl := fun version platform arch =>
    "https://download.cypress.io/desktop/" ++ version ++ "?platform=" ++ platform ++ "&arch=" ++ arch
  getFilename := fun version platform arch =>
    "cypress-" ++ version ++ "-" ++ platform ++ "-" ++ arch ++ ".zip"

/-- `BINARY_PACKAGES.electron`. -/
def electronConfig : PackageConfig where
  name := "Electron"
  platforms := desktopPlatforms
  getDownloadUrl := fun version platform arch =>
    "https://github.com/electron/electron/releases/download/v" ++ version ++ "/electron-v" ++
      version ++ "-" ++ platform ++ "-" ++ arch ++ ".zip"
  getFilename := fun version platform arch =>
    "electron-v" ++ version ++ "-" ++ platform ++ "-" ++ arch ++ ".zip"

/-- `version.replace(/[^\d.]/g, '')` of the puppeteer URL builder. -/
def chromeVersionOf (version : String) : String :=
  String.mk (version.data.filter (fun c => c.isDigit || c == '.'))

/-- `BINARY_PACKAGES.puppeteer`. -/
def puppeteerConfig : PackageConfig where
  name := "Puppeteer"
  platforms := desktopPlatforms
  getDownloadUrl := fun version platform arch =>
    "https://storage.googleapis.com/chrome-for-testing-public/" ++ chromeVersionOf version ++
      "/" ++ platform ++ "-" ++ arch ++ "/chrome-" ++ platform ++ "-" ++ arch ++ ".zip"
  getFilename := fun version platform arch =>
    "puppeteer-chrome-" ++ version ++ "-" ++ platform ++ "-" ++ arch ++ ".zip"

/-- `BINARY_PACKAGES.playwright`. -/
def playwrightConfig : PackageConfig where
  name := "Playwright"
  platforms := desktopPlatforms
  getDownloadUrl := fun version platform arch =>
    "https://playwright.azureedge.net/builds/playwright-" ++ version ++ "-" ++ platform ++ "-" ++ arch ++ ".zip"
  getFilename := fun version platform arch =>
    "playwright-" ++ version ++ "-" ++ platform ++ "-" ++ arch ++ ".zip"

/-- `BINARY_PACKAGES['playwright-core']`. -/
def playwrightCoreConfig : PackageConfig where
  name := "Playwright Core"
  platforms := desktopPlatforms
  getDownloadUrl := fun version platform arch =>
    "https://playwright.azureedge.net/builds/playwright-core-" ++ version ++ "-" ++ platform ++ "-" ++ arch ++ ".zip"
  getFilename := fun version platform arch =>
    "playwright-core-" ++ version ++ "-" ++ platform ++ "-" ++ arch ++ ".zip"

/-- `BINARY_PACKAGES['playwright-chromium']`. -/
def playwrightChromiumConfig : PackageConfig where
  name := "Playwright Chromium"
  platforms := desktopPlatforms
  getDownloadUrl := fun version platform arch =>
    "https://playwright.azureedge.net/builds/chromium-" ++ version ++ "-" ++ platform ++ "-" ++ arch ++ ".zip"
  getFilename := fun version platform arch =>
    "playwright-chromium-" ++ version ++ "-" ++ platform ++ "-" ++ arch ++ ".zip"

/-- `BINARY_PACKAGES['playwright-firefox']`. -/
def playwrightFirefoxConfig : PackageConfig where
  name := "Playwright Firefox"
  platforms := desktopPlatforms
  getDownloadUrl := fun version platform arch =>
    "https://playwright.azureedge.net/builds/firefox-" ++ version ++ "-" ++ platform ++ "-" ++ arch ++ ".zip"
  getFilename := fun version platform arch =>
    "playwright-firefox-" ++ version ++ "-" ++ platform ++ "-" ++ arch ++ ".zip"

/-- `BINARY_PACKAGES['playwright-webkit']`. -/
def playwrightWebkitConfig : PackageConfig where
  name := "Playwright WebKit"
  platforms := desktopPlatforms
  getDownloadUrl := fun version platform arch =>
    "https://playwright.azureedge.net/builds/webkit-" ++ version ++ "-" ++ platform ++ "-" ++ arch ++ ".zip"
  getFilename := fun version platform arch =>
    "playwright-webkit-" ++ version ++ "-" ++ platform ++ "-" ++ arch ++ ".zip"

/-- `BINARY_PACKAGES`: the known packages with downloadable binaries,
as an association list keyed by dependency name. -/
def binaryPackages : List (String × PackageConfig) :=
  [("cypress", cypressConfig),
   ("electron", electronConfig),
   ("puppeteer", puppeteerConfig),
   ("playwright", playwrightConfig),
   ("playwright-core", playwrightCoreConfig),
   ("playwright-chromium", playwrightChromiumConfig),
   ("playwright-firefox", playwrightFirefoxConfig),
   ("playwright-webkit", playwrightWebkitConfig)]

/-- The synthesized configuration for a dependency that is not in
`BINARY_PACKAGES` (script lines 199-206). -/
def npmConfig (packageName : String) : PackageConfig where
  name := packageName
  platforms := [⟨"All Platforms", "npm", "all"⟩]
  getDownloadUrl := fun version _ _ =>
    "https://registry.npmjs.org/" ++ packageName ++ "/-/" ++ packageName ++ "-" ++ version ++ ".tgz"
  getFilename := fun version _ _ => packageName ++ "-" ++ version ++ ".tgz"

/-- The two dependency groups of the fetched `package.json`, as ordered
association lists of name and raw version spec. -/
structure PackageJson where
  dependencies : List (String × String)
  devDependencies : List (String × String)

/-- Overlay of devDependencies over dependencies, as the JS object spread
`{ ...dependencies, ...devDependencies }` produces it: keys of the first
group keep their position but take the second group's value when shared;
the second group's new keys follow in order. -/
def mergeDeps (deps devDeps : List (String × String)) : List (String × String) :=
  (deps.map (fun p =>
    match devDeps.lookup p.1 with
    | some w => (p.1, w)
    | none => p)) ++
    devDeps.filter (fun p => (deps.lookup p.1).isNone)

/-- `version.replace(/^[\^~]/, '')`: a single leading `^` or `~` is removed. -/
def stripVersionRange (v : String) : String :=
  match v.data with
  | [] => v
  | c :: cs => if c == '^' || c == '~' then String.mk cs else v

/-- `getAllDependencies` (script lines 170-176). -/
def getAllDependencies (pj : PackageJson) : List (String × String) :=
  (mergeDeps pj.dependencies pj.devDependencies).map (fun p => (p.1, stripVersionRange p.2))

/-- The `type` field of a work item: `'binary'` or `'npm'`. -/
inductive PkgType where
  | binary
  | npm
deriving DecidableEq

/-- A work item of `packagesToCache` (script lines 188-208). -/
structure PackageInfo where
  name : String
  version : String
  config : PackageConfig
  type : PkgType

/-- `getAllPackages` (script lines 178-213): classify every dependency
against `BINARY_PACKAGES`, synthesizing an npm configuration otherwise. -/
def getAllPackages (pj : PackageJson) : List PackageInfo :=
  (getAllDependencies pj).map (fun p =>
    match binaryPackages.lookup p.1 with
    | some cfg => { name := p.1, version := p.2, config := cfg, type := .binary }
    | none => { name := p.1, version := p.2, config := npmConfig p.1, type := .npm })

/-! ### The release publisher and batch runner
(`checkReleaseExists`, `createRelease`, `uploadAsset`, `cleanup`,
`cachePackage`, `main`; script lines 215-230, 280-324, 337-409, 411-485,
487-549) -/

/-- An observable step of a run: the release-backend API calls that reach
the network, the HTTP GETs of the downloader, and the console lines the
claims talk about. -/
inductive Event where
  | apiGetReleaseByTag (tag : String)
  | apiCreateRelease (tag : String)
  | apiUploadAsset (filename : String)
  | httpGet (url : String)
  | log (line : String)
deriving DecidableEq

/-- The remote state of the release-hosting backend: the tags that have a
release. -/
structure Backend where
  releases : List String
deriving DecidableEq

/-- Behaviour of the collaborators: the download servers' reply per URL and
the injected failures of the three backend calls (`none` = the call
succeeds).  A fault status of `404` on lookup is the backend's way of
saying the release does not exist. -/
structure World where
  server : String → HttpReply
  lookupFault : String → Option Nat
  createFault : String → Option Nat
  uploadFault : String → Option Nat

/-- The state a run threads: the backend's releases, the files currently in
the scratch (`temp`) directory, and the events so far. -/
structure RunState where
  backend : Backend
  disk : List String
  events : List Event
deriving DecidableEq

/-- Append one event. -/
def emit (st : RunState) (e : Event) : RunState :=
  { st with events := st.events ++ [e] }

/-- `fs.createWriteStream(filepath)`: the destination file exists (empty at
first) from the moment the stream is opened. -/
def addFile (st : RunState) (f : String) : RunState :=
  if st.disk.contains f then st else { st with disk := st.disk ++ [f] }

/-- `fs.unlink` / `fs.unlinkSync`: remove a path from the scratch directory. -/
def removeFile (st : RunState) (f : String) : RunState :=
  { st with disk := st.disk.filter (fun g => g != f) }

/-- Errors that a work item's processing can raise: a backend API error
carrying its HTTP status, or a download failure. -/
inductive Thrown where
  | api (status : Nat)
  | download (e : DlErr)
deriving DecidableEq

/-- `octokit.rest.repos.getReleaseByTag`: emits the API call, then either
the injected fault status, or `404` when no release has the tag. -/
def getReleaseByTagModel (w : World) (st : RunState) (tag : String) :
    Except Nat Unit × RunState :=
  let st := emit st (.apiGetReleaseByTag tag)
  match w.lookupFault tag with
  | some s => (.error s, st)
  | none =>
    if st.backend.releases.contains tag then (.ok (), st) else (.error 404, st)

/-- `checkReleaseExists` (script lines 215-230): a `404` from the backend
maps to `exists = false`; any other error is rethrown. -/
def checkReleaseExists (w : World) (st : RunState) (packageName version : String) :
    Except Nat Bool × RunState :=
  let tagName := sanitizeTagName (packageName ++ "-" ++ version)
  match getReleaseByTagModel w st tagName with
  | (.ok _, st) => (.ok true, st)
  | (.error s, st) => if s == 404 then (.ok false, st) else (.error s, st)

/-- `createRelease` (script lines 337-367): in deploy mode the backend call
is made and, when it succeeds, the release for the tag starts existing; in
dry-run mode only a console line is produced and nothing remote changes. -/
def createRelease (w : World) (st : RunState) (tag : String) (deploy : Bool) :
    Except Nat Unit × RunState :=
  if deploy then
    let st := emit st (.apiCreateRelease tag)
    match w.createFault tag with
    | some s => (.error s, st)
    | none => (.ok (), { st with backend := { releases := tag :: st.backend.releases } })
  else
    (.ok (), emit st (.log ("[DRY RUN] Would create release: " ++ tag)))

/-- `uploadAsset` (script lines 369-389): in dry-run mode only the
`[DRY RUN] Would upload asset` line is produced; in deploy mode the backend
call is made and may fail. -/
def uploadAsset (w : World) (st : RunState) (filename : String) (deploy : Bool) :
    Except Nat Unit × RunState :=
  if deploy then
    let st := emit st (.apiUploadAsset filename)
    match w.uploadFault filename with
    | some s => (.error s, st)
    | none => (.ok (), st)
  else
    (.ok (), emit st (.log ("[DRY RUN] Would upload asset: " ++ filename)))

/-- Common body of `downloadPackageBinary` and `downloadNpmPackage`
(script lines 280-324) together with the file effects of `downloadFile`:
log the download, open the write stream (the file now exists), run the
redirect loop, and delete the file in the transport-error handler only —
the other failure paths of `downloadFile` reject without unlinking. -/
def downloadToFile (w : World) (st : RunState) (url filename : String) :
    Except DlErr Unit × RunState :=
  let st := emit st (.log ("Downloading " ++ filename ++ " from " ++ url))
  let st := addFile st filename
  let dl := downloadFile w.server url
  let st := { st with events := st.events ++ dl.2.map Event.httpGet }
  match dl.1 with
  | .error .transport => (.error .transport, removeFile st filename)
  | r => (r, st)

/-- The loop over `config.platforms` of the binary branch of `cachePackage`
(script lines 446-455): download, record the path in `downloadedFiles`,
upload; the first failure aborts the remaining targets. -/
def transferPlatforms (w : World) (deploy : Bool) (cfg : PackageConfig) (version : String) :
    List PlatformTarget → RunState → List String →
    Except Thrown Unit × RunState × List String
  | [], st, files => (.ok (), st, files)
  | t :: rest, st, files =>
    let url := cfg.getDownloadUrl version t.platform t.arch
    let filename := cfg.getFilename version t.platform t.arch
    match downloadToFile w st url filename with
    | (.error e, st) => (.error (.download e), st, files)
    | (.ok _, st) =>
      let files := files ++ [filename]
      match uploadAsset w st filename deploy with
      | (.error s, st) => (.error (.api s), st, files)
      | (.ok _, st) => transferPlatforms w deploy cfg version rest st files

/-- The npm branch of `cachePackage` (script lines 456-464): a single
download and upload; the script calls the builders with the version only,
and the synthesized npm builders ignore the other two arguments. -/
def transferNpm (w : World) (deploy : Bool) (cfg : PackageConfig) (version : String)
    (st : RunState) (files : List String) :
    Except Thrown Unit × RunState × List String :=
  let url := cfg.getDownloadUrl version "" ""
  let filename := cfg.getFilename version "" ""
  match downloadToFile w st url filename with
  | (.error e, st) => (.error (.download e), st, files)
  | (.ok _, st) =>
    let files := files ++ [filename]
    match uploadAsset w st filename deploy with
    | (.error s, st) => (.error (.api s), st, files)
    | (.ok _, st) => (.ok (), st, files)

/-- `cleanup(filepaths)` (script lines 391-409): best-effort unlink of each
recorded path. -/
def cleanup (st : RunState) (files : List String) : RunState :=
  files.foldl removeFile st

/-- `cachePackage` (script lines 411-485).  The existence check and
`createRelease` happen before the `try` block, so their errors leave the
function; every error raised inside the `try` (downloads and uploads) is
caught and turned into the `false` result; the `finally` cleanup of
`downloadedFiles` runs on both exits of the `try`. -/
def cachePackage (w : World) (pkg : PackageInfo) (deploy : Bool) (st : RunState) :
    Except Thrown Bool × RunState :=
  match checkReleaseExists w st pkg.name pkg.version with
  | (.error s, st) => (.error (.api s), st)
  | (.ok true, st) => (.ok true, st)
  | (.ok false, st) =>
    let tagName := sanitizeTagName (pkg.name ++ "-" ++ pkg.version)
    match createRelease w st tagName deploy with
    | (.error s, st) => (.error (.api s), st)
    | (.ok _, st) =>
      let out :=
        match pkg.type with
        | .binary => transferPlatforms w deploy pkg.config pkg.version pkg.config.platforms st []
        | .npm => transferNpm w deploy pkg.config pkg.version st []
      let result : Except Thrown Bool :=
        match out.1 with
        | .ok _ => .ok true
        | .error _ => .ok false
      (result, cleanup out.2.1 out.2.2)

/-- The per-item loop of `main` (script lines 525-535), carrying the
success counter.  An error escaping `cachePackage` ends the loop: `main`
has no handler around it, so `main().catch` reports it and the process
exits. -/
def runItems (w : World) (deploy : Bool) :
    List PackageInfo → RunState → Nat → Except Thrown Nat × RunState
  | [], st, successCount => (.ok successCount, st)
  | p :: rest, st, successCount =>
    match cachePackage w p deploy st with
    | (.error e, st) => (.error e, st)
    | (.ok b, st) => runItems w deploy rest st (if b then successCount + 1 else successCount)

/-- The batch part of `main`: process every work item and report the
`successCount/totalCount` summary. -/
def runBatch (w : World) (items : List PackageInfo) (deploy : Bool) (st : RunState) :
    Except Thrown (Nat × Nat) × RunState :=
  match runItems w deploy items st 0 with
  | (.ok s, st) => (.ok (s, items.length), st)
  | (.error e, st) => (.error e, st)

/-- A run starts with no releases known locally to exist, an empty scratch
directory and no events; `emptyState.backend` is overridden in scenarios
where releases pre-exist. -/
def emptyState : RunState :=
  { backend := { releases := [] }, disk := [], events := [] }

/-! ### Event predicates and concrete scenarios -/

/-- Does `needle` occur at the start of `hay`? -/
def leadsWith : List Char → List Char → Bool
  | [], _ => true
  | _ :: _, [] => false
  | a :: as, b :: bs => a == b && leadsWith as bs

/-- Does `needle` occur anywhere inside `hay`? -/
def hasSub (needle : List Char) : List Char → Bool
  | [] => leadsWith needle []
  | c :: rest => leadsWith needle (c :: rest) || hasSub needle rest

/-- A release-lookup API call. -/
def isApiGetRelease : Event → Bool
  | .apiGetReleaseByTag _ => true
  | _ => false

/-- A release-creation API call. -/
def isApiCreate : Event → Bool
  | .apiCreateRelease _ => true
  | _ => false

/-- An asset-upload API call. -/
def isApiUpload : Event → Bool
  | .apiUploadAsset _ => true
  | _ => false

/-- An API call that mutates remote state. -/
def isMutatingApi (e : Event) : Bool :=
  isApiCreate e || isApiUpload e

/-- An HTTP GET of the downloader. -/
def isHttpGet : Event → Bool
  | .httpGet _ => true
  | _ => false

/-- A console line announcing a download that would happen: matches
`ould download` so that both capitalizations are caught. -/
def isWouldDownloadLog : Event → Bool
  | .log line => hasSub "ould download".data line.data
  | _ => false

/-- A console line announcing an upload that would happen. -/
def isWouldUploadLog : Event → Bool
  | .log line => hasSub "ould upload".data line.data
  | _ => false

/-- Number of events satisfying a predicate. -/
def countEvents (p : Event → Bool) (evs : List Event) : Nat :=
  (evs.filter p).length

/-- `true` on `Except.ok`. -/
def exceptIsOk {ε α : Type} : Except ε α → Bool
  | .ok _ => true
  | .error _ => false

/-- A server that answers every GET with a plain `200`. -/
def okServer : String → HttpReply := fun _ => .response 200 none

/-- A server that answers every GET with a `500`. -/
def badServer : String → HttpReply := fun _ => .response 500 none

/-- A server whose connections always fail at the transport level. -/
def connFailServer : String → HttpReply := fun _ => .connError

/-- A server that answers every GET with a `301` pointing somewhere. -/
def redirServer : String → HttpReply := fun u => .response 301 (some (u ++ "r"))

/-- A world with the given server and no injected backend faults. -/
def faultFreeWorld (server : String → HttpReply) : World :=
  { server := server
    lookupFault := fun _ => none
    createFault := fun _ => none
    uploadFault := fun _ => none }

/-- Manifest declaring only `"cypress": "^13.6.0"`. -/
def cypressManifest : PackageJson :=
  { dependencies := [("cypress", "^13.6.0")], devDependencies := [] }

/-- Manifest declaring only `"left-pad": "~1.3.0"`. -/
def leftPadManifest : PackageJson :=
  { dependencies := [("left-pad", "~1.3.0")], devDependencies := [] }

/-- The single work item the resolver builds from `leftPadManifest`. -/
def leftPadItem : PackageInfo :=
  { name := "left-pad", version := "1.3.0", config := npmConfig "left-pad", type := .npm }

example :
    (runBatch (faultFreeWorld okServer) (getAllPackages cypressManifest) false emptyState).1 =
      .ok (1, 1) := by rfl
example :
    countEvents isWouldUploadLog
      (runBatch (faultFreeWorld okServer) (getAllPackages cypressManifest) false emptyState).2.events = 3 := by
  decide
example :
    countEvents isHttpGet
      (runBatch (faultFreeWorld okServer) (getAllPackages cypressManifest) false emptyState).2.events = 3 := by
  decide
example :
    (runBatch (faultFreeWorld badServer) (getAllPackages leftPadManifest) false emptyState).2.disk =
      ["left-pad-1.3.0.tgz"] := by decide
example :
    (runBatch (faultFreeWorld badServer) (getAllPackages leftPadManifest) false emptyState).1 =
      .ok (0, 1) := by rfl

/-! ### Lemmas about the tag sanitizer -/

/-- Characters of the replacement step are all valid. -/
theorem mem_replaceInvalid (l : List Char) (c : Char) (hc : c ∈ replaceInvalid l) :
    validChar c = true := by
  simp only [replaceInvalid, List.mem_map] at hc
  obtain ⟨a, -, ha⟩ := hc
  by_cases h : validChar a = true
  · have hac : a = c := by simpa [h] using ha
    rwa [← hac]
  · have hac : '-' = c := by simpa [h] using ha
    rw [← hac]
    decide

/-- The leading-strip step only drops characters. -/
theorem mem_stripLeadDotDash (l : List Char) (c : Char) (hc : c ∈ stripLeadDotDash l) :
    c ∈ l := by
  cases l with
  | nil => simpa [stripLeadDotDash] using hc
  | cons a as =>
    simp only [stripLeadDotDash] at hc
    by_cases h : (a == '.' || a == '-') = true
    · simp only [h, if_pos] at hc
      exact List.mem_cons_of_mem a hc
    · simp only [h] at hc
      simpa using hc

/-- The trailing-strip step only drops characters. -/
theorem mem_stripTrailDotDash (l : List Char) (c : Char) (hc : c ∈ stripTrailDotDash l) :
    c ∈ l := by
  simp only [stripTrailDotDash, List.mem_reverse] at hc
  have := mem_stripLeadDotDash l.reverse c hc
  simpa using this

/-- The collapse step only drops characters. -/
theorem mem_collapseHyphens : ∀ l : List Char, ∀ c : Char, c ∈ collapseHyphens l → c ∈ l
  | [], c, hc => by simpa [collapseHyphens] using hc
  | [a], c, hc => by simpa [collapseHyphens] using hc
  | a :: b :: rest, c, hc => by
    simp only [collapseHyphens] at hc
    by_cases h : (a == '-' && b == '-') = true
    · simp only [h, if_pos] at hc
      exact List.mem_cons_of_mem a (mem_collapseHyphens (b :: rest) c hc)
    · simp only [h] at hc
      rcases List.mem_cons.mp hc with h1 | h2
      · simp [h1]
      · exact List.mem_cons_of_mem a (mem_collapseHyphens (b :: rest) c h2)

/-- No two adjacent hyphens. -/
def noHyphenRun : List Char → Bool
  | [] => true
  | [_] => true
  | c :: d :: rest => !(c == '-' && d == '-') && noHyphenRun (d :: rest)

/-- The collapse step keeps the head of a nonempty list. -/
theorem collapseHyphens_cons : ∀ (d : Char) (rest : List Char),
    ∃ t, collapseHyphens (d :: rest) = d :: t
  | d, [] => ⟨[], rfl⟩
  | d, e :: r => by
    by_cases h : (d == '-' && e == '-') = true
    · obtain ⟨t, ht⟩ := collapseHyphens_cons e r
      refine ⟨t, ?_⟩
      have hd : d = '-' := by
        have := (Bool.and_eq_true _ _).mp h
        exact eq_of_beq this.1
      have he : e = '-' := by
        have := (Bool.and_eq_true _ _).mp h
        exact eq_of_beq this.2
      simp only [collapseHyphens, h, if_pos]
      rw [ht, hd, he]
    · exact ⟨collapseHyphens (e :: r), by simp only [collapseHyphens, h, if_neg]; simp [h]⟩

/-- The collapse step leaves no adjacent hyphens. -/
theorem noHyphenRun_collapseHyphens : ∀ l : List Char, noHyphenRun (collapseHyphens l) = true
  | [] => rfl
  | [_] => rfl
  | a :: b :: rest => by
    by_cases h : (a == '-' && b == '-') = true
    · simpa [collapseHyphens, h] using noHyphenRun_collapseHyphens (b :: rest)
    · obtain ⟨t, ht⟩ := collapseHyphens_cons b rest
      have ih := noHyphenRun_collapseHyphens (b :: rest)
      rw [ht] at ih
      simp only [collapseHyphens, h, if_neg, ht]
      simpa [noHyphenRun, h] using ih

/-- Truncation cannot create adjacent hyphens. -/
theorem noHyphenRun_take : ∀ (n : Nat) (l : List Char),
    noHyphenRun l = true → noHyphenRun (l.take n) = true := by
  intro n
  induction n with
  | zero => intro l _; simp [noHyphenRun]
  | succ m ih =>
    intro l hl
    match l with
    | [] => simpa [noHyphenRun] using hl
    | [c] => cases m <;> simp [noHyphenRun]
    | c :: d :: rest =>
      match m with
      | 0 => simp [noHyphenRun]
      | m' + 1 =>
        simp only [noHyphenRun, Bool.and_eq_true] at hl
        have h2 := ih (d :: rest) hl.2
        simp only [List.take]
        simp only [noHyphenRun, Bool.and_eq_true]
        exact ⟨hl.1, by simpa [List.take] using h2⟩

/-- The replacement step fixes a list of valid characters. -/
theorem replaceInvalid_eq_self : ∀ l : List Char, (∀ c ∈ l, validChar c = true) →
    replaceInvalid l = l
  | [], _ => rfl
  | a :: as, h => by
    have ha := h a (List.mem_cons_self a as)
    have has : ∀ c ∈ as, validChar c = true := fun c hc => h c (List.mem_cons_of_mem a hc)
    have ih := replaceInvalid_eq_self as has
    simp only [replaceInvalid, List.map_cons, ha, if_true, List.cons.injEq, true_and] at ih ⊢
    exact ih

/-- Edge test used below: the optional character is not `.` or `-`. -/
def charOkEdge (o : Option Char) : Bool :=
  match o with
  | some c => !(c == '.' || c == '-')
  | none => true

/-- The leading-strip step fixes a list whose head is not `.` or `-`. -/
theorem stripLeadDotDash_eq_self (l : List Char) (h : charOkEdge l.head? = true) :
    stripLeadDotDash l = l := by
  cases l with
  | nil => rfl
  | cons c cs =>
    simp only [List.head?, charOkEdge, Bool.not_eq_true'] at h
    simp [stripLeadDotDash, h]

/-- The trailing-strip step fixes a list whose last character is not `.` or `-`. -/
theorem stripTrailDotDash_eq_self (l : List Char) (h : charOkEdge l.getLast? = true) :
    stripTrailDotDash l = l := by
  unfold stripTrailDotDash
  rw [stripLeadDotDash_eq_self]
  · exact List.reverse_reverse l
  · rwa [List.head?_reverse]

/-- The collapse step fixes a list with no adjacent hyphens. -/
theorem collapseHyphens_eq_self : ∀ l : List Char, noHyphenRun l = true → collapseHyphens l = l
  | [], _ => rfl
  | [_], _ => rfl
  | a :: b :: rest, h => by
    simp only [noHyphenRun, Bool.and_eq_true, Bool.not_eq_true'] at h
    simp [collapseHyphens, h.1, collapseHyphens_eq_self (b :: rest) h.2]

/-- Every character of a sanitized tag is in `[A-Za-z0-9._-]`. -/
theorem sanitize_chars_valid (s : String) (c : Char) (hc : c ∈ (sanitizeTagName s).data) :
    validChar c = true := by
  simp only [sanitizeTagName] at hc
  have h1 := List.take_subset 100 _ hc
  have h2 := mem_collapseHyphens _ c h1
  have h3 := mem_stripTrailDotDash _ c h2
  have h4 := mem_stripLeadDotDash _ c h3
  exact mem_replaceInvalid _ c h4

/-- A sanitized tag has length at most 100. -/
theorem sanitize_length_le (s : String) : (sanitizeTagName s).length ≤ 100 := by
  simp only [sanitizeTagName, String.length]
  simpa using List.length_take_le 100 _

/-- A sanitized tag has no adjacent hyphens. -/
theorem sanitize_noHyphenRun (s : String) : noHyphenRun (sanitizeTagName s).data = true := by
  simp only [sanitizeTagName]
  exact noHyphenRun_take 100 _ (noHyphenRun_collapseHyphens _)

/-- Rebuilding a string from its characters is the identity. -/
theorem stringMk_data (s : String) : String.mk s.data = s := by
  cases s
  rfl

/-- Both edges of the character list avoid `.` and `-`. -/
def edgeOk (l : List Char) : Bool :=
  charOkEdge l.head? && charOkEdge l.getLast?

/-- From `charOkEdge` to the hypothesis form used by the strip lemmas. -/
theorem charOkEdge_of_edgeOk_left (l : List Char) (h : edgeOk l = true) :
    charOkEdge l.head? = true := by
  simp only [edgeOk, Bool.and_eq_true] at h
  exact h.1

/-- From `charOkEdge` to the hypothesis form used by the strip lemmas. -/
theorem charOkEdge_of_edgeOk_right (l : List Char) (h : edgeOk l = true) :
    charOkEdge l.getLast? = true := by
  simp only [edgeOk, Bool.and_eq_true] at h
  exact h.2

/-- Any already-sanitized character list is a fixed point of the whole
pipeline provided its edges avoid `.` and `-`. -/
theorem sanitize_fixed (t : List Char)
    (hvalid : ∀ c ∈ t, validChar c = true)
    (hrun : noHyphenRun t = true)
    (hlen : t.length ≤ 100)
    (hedge : edgeOk t = true) :
    sanitizeTagName (String.mk t) = String.mk t := by
  simp only [sanitizeTagName]
  rw [replaceInvalid_eq_self t hvalid]
  rw [stripLeadDotDash_eq_self t (charOkEdge_of_edgeOk_left t hedge)]
  rw [stripTrailDotDash_eq_self t (charOkEdge_of_edgeOk_right t hedge)]
  rw [collapseHyphens_eq_self t hrun]
  rw [List.take_of_length_le hlen]

/-- C6 (corrected, counterexample): the sanitizer is not idempotent as
claimed — the anchored, non-global leading-strip regex removes only one
dot, so `sanitize("..a") = ".a"` while `sanitize(".a") = "a"`. -/
theorem c6_counterexample :
    sanitizeTagName (sanitizeTagName "..a") ≠ sanitizeTagName "..a" := by
  decide

/-- C6 (amended): the sanitizer is idempotent on every input whose
sanitized form neither starts nor ends with `.` or `-`; a second
application can only differ by stripping one more leading or trailing
`.`/`-`. -/
theorem c6_amended (s : String) (h : edgeOk (sanitizeTagName s).data = true) :
    sanitizeTagName (sanitizeTagName s) = sanitizeTagName s := by
  have hfix := sanitize_fixed (sanitizeTagName s).data
    (sanitize_chars_valid s) (sanitize_noHyphenRun s) ?hlen h
  · rwa [stringMk_data] at hfix
  case hlen => exact sanitize_length_le s

/-- C6 witness: concrete instance of the amended idempotence at a string
whose sanitized form is `hello-world`. -/
theorem c6_amended_witness :
    sanitizeTagName (sanitizeTagName "hello world") = sanitizeTagName "hello world" :=
  c6_amended "hello world" (by decide)

/-- The shape the specification claims for every sanitized tag: only
`[A-Za-z0-9._-]` characters, length at most 100, and neither edge a `.`
or `-`.  This definition follows the specification's words, to be compared
with what `sanitizeTagName` actually produces. -/
def sanitizeSpecContract (s : String) : Prop :=
  (∀ c ∈ (sanitizeTagName s).data, validChar c = true) ∧
    (sanitizeTagName s).length ≤ 100 ∧
    edgeOk (sanitizeTagName s).data = true

/-- Decidability of the contract, so counterexamples can be checked by
evaluation. -/
instance (s : String) : Decidable (sanitizeSpecContract s) := by
  unfold sanitizeSpecContract
  infer_instance

/-- C7 (corrected, counterexample): the claimed output shape fails at
`"--b"` — the single anchored strip leaves `sanitize("--b") = "-b"`,
which starts with `-`. -/
theorem c7_counterexample : ¬ sanitizeSpecContract "--b" := by
  decide

/-- C7 (amended): every sanitized tag contains only `[A-Za-z0-9._-]` and
has length at most 100; the edges may still be `.` or `-` (only one
leading and one trailing occurrence are stripped). -/
theorem c7_amended (s : String) :
    (∀ c ∈ (sanitizeTagName s).data, validChar c = true) ∧
      (sanitizeTagName s).length ≤ 100 :=
  ⟨sanitize_chars_valid s, sanitize_length_le s⟩

/-! ### Lemmas about the downloader -/

/-- A reply that makes the downloader follow a redirect: status 301 or 302
and a `Location` header present. -/
def isRedirectReply : HttpReply → Bool
  | .response statusCode (some _) => statusCode == 301 || statusCode == 302
  | _ => false

/-- Each recursion step issues at most one request, and recursion depth is
bounded by the budget, so at most `budget` requests are ever issued. -/
theorem downloadFileGo_requests_le (server : String → HttpReply) :
    ∀ (budget redirectCount : Nat) (url : String),
      (downloadFileGo server budget redirectCount url).2.length ≤ budget := by
  intro budget
  induction budget with
  | zero => intro rc url; simp [downloadFileGo]
  | succ b ih =>
    intro rc url
    simp only [downloadFileGo]
    match hs : server url with
    | .connError => simp
    | .response statusCode location =>
      by_cases hc : (statusCode == 301 || statusCode == 302) = true
      · match location with
        | some redirectUrl =>
          simp only [hc, if_true, List.length_cons]
          exact Nat.succ_le_succ (ih (rc + 1) redirectUrl)
        | none => simp [hc]
      · by_cases h2 : (statusCode != 200) = true
        · simp [hc, h2]
        · simp [hc, h2]

/-- Against a server that always redirects, the loop consumes its whole
budget: the result is the redirect-limit error with the counter at
`redirectCount + budget`, after exactly `budget` requests. -/
theorem downloadFileGo_all_redirects (server : String → HttpReply)
    (hserver : ∀ u, isRedirectReply (server u) = true) :
    ∀ (budget redirectCount : Nat) (url : String),
      (downloadFileGo server budget redirectCount url).1 =
          .error (.tooManyRedirects (redirectCount + budget)) ∧
        (downloadFileGo server budget redirectCount url).2.length = budget := by
  intro budget
  induction budget with
  | zero => intro rc url; simp [downloadFileGo]
  | succ b ih =>
    intro rc url
    have h := hserver url
    match hs : server url with
    | .connError => rw [hs] at h; simp [isRedirectReply] at h
    | .response statusCode none => rw [hs] at h; simp [isRedirectReply] at h
    | .response statusCode (some redirectUrl) =>
      rw [hs] at h
      simp only [isRedirectReply] at h
      obtain ⟨ih1, ih2⟩ := ih (rc + 1) redirectUrl
      have hstep : downloadFileGo server (b + 1) rc url =
          ((downloadFileGo server b (rc + 1) redirectUrl).1,
            url :: (downloadFileGo server b (rc + 1) redirectUrl).2) := by
        simp [downloadFileGo, hs, h]
      rw [hstep]
      constructor
      · rw [ih1, Nat.add_assoc, Nat.add_comm 1 b]
      · simp [ih2]

/-- C8: the downloader follows redirects via the `Location` header with its
hop counter capped at `maxRedirects = 5`: no run ever issues more than 5
requests (in particular never a 7th), and against a server that would
answer 6 consecutive redirects the download fails with the
too-many-redirects error after exactly 5 requests. -/
theorem c8_redirect_bound (server : String → HttpReply) (url : String) :
    (downloadFile server url).2.length ≤ 5 ∧
      ((∀ u, isRedirectReply (server u) = true) →
        (downloadFile server url).1 = .error (.tooManyRedirects 5) ∧
          (downloadFile server url).2.length = 5) := by
  constructor
  · exact downloadFileGo_requests_le server 5 0 url
  · intro hserver
    have h := downloadFileGo_all_redirects server hserver 5 0 url
    exact ⟨h.1, h.2⟩

/-- C8 witness: the always-redirecting server makes the download fail with
the redirect-limit error after exactly 5 requests. -/
theorem c8_redirect_bound_witness :
    (downloadFile redirServer "https://a.example/x").1 = .error (.tooManyRedirects 5) ∧
      (downloadFile redirServer "https://a.example/x").2.length = 5 :=
  (c8_redirect_bound redirServer "https://a.example/x").2 (fun _ => rfl)

/-! ### C9: classification of unknown dependencies -/

/-- C9 (corrected, counterexample): the synthetic platform the resolver
attaches to `left-pad` is `{os: "All Platforms", platform: "npm",
arch: "all"}` — its platform identifier is `"npm"`, not `"registry"` as
the claim states. -/
theorem c9_counterexample :
    ((getAllPackages leftPadManifest).map
        (fun p => p.config.platforms.map (fun t => (t.os, t.platform, t.arch))) =
      [[("All Platforms", "npm", "all")]]) ∧
      ("npm" : String) ≠ "registry" := by
  constructor
  · decide
  · decide

/-- C9 (amended): a dependency whose name is not in `BINARY_PACKAGES`
becomes one npm-kind work item whose version is the manifest spec with a
single leading `^` or `~` stripped, whose single synthetic platform is
`{os: "All Platforms", platform: "npm", arch: "all"}`, and whose URL and
filename builders produce the registry tarball URL (host
`https://registry.npmjs.org`) and `{name}-{version}.tgz`. -/
theorem c9_amended (name ver : String) (h : binaryPackages.lookup name = none) :
    getAllPackages { dependencies := [(name, ver)], devDependencies := [] } =
      [{ name := name, version := stripVersionRange ver,
         config := npmConfig name, type := .npm }] ∧
      (npmConfig name).platforms.map (fun t => (t.os, t.platform, t.arch)) =
        [("All Platforms", "npm", "all")] ∧
      (npmConfig name).getDownloadUrl (stripVersionRange ver) "" "" =
        "https://registry.npmjs.org/" ++ name ++ "/-/" ++ name ++ "-" ++
          stripVersionRange ver ++ ".tgz" ∧
      (npmConfig name).getFilename (stripVersionRange ver) "" "" =
        name ++ "-" ++ stripVersionRange ver ++ ".tgz" := by
  refine ⟨?_, rfl, rfl, rfl⟩
  simp [getAllPackages, getAllDependencies, mergeDeps, h]

/-- C9 witness: the left-pad scenario — `"~1.3.0"` resolves to version
`1.3.0`, filename `left-pad-1.3.0.tgz` and the registry URL. -/
theorem c9_amended_witness :
    getAllPackages leftPadManifest = [leftPadItem] ∧
      leftPadItem.config.platforms.map (fun t => (t.os, t.platform, t.arch)) =
        [("All Platforms", "npm", "all")] ∧
      leftPadItem.config.getDownloadUrl "1.3.0" "" "" =
        "https://registry.npmjs.org/left-pad/-/left-pad-1.3.0.tgz" ∧
      leftPadItem.config.getFilename "1.3.0" "" "" = "left-pad-1.3.0.tgz" :=
  c9_amended "left-pad" "~1.3.0" rfl

/-! ### The already-cached branch of `cachePackage` -/

/-- When the lookup does not fault and a release with the item's sanitized
tag exists, `cachePackage` returns `true` right away and the only effect is
the single lookup call. -/
theorem cachePackage_exists_branch (w : World) (pkg : PackageInfo) (deploy : Bool)
    (st : RunState)
    (hfault : w.lookupFault (sanitizeTagName (pkg.name ++ "-" ++ pkg.version)) = none)
    (hmem : st.backend.releases.contains (sanitizeTagName (pkg.name ++ "-" ++ pkg.version)) = true) :
    cachePackage w pkg deploy st =
      (.ok true,
        { st with events := st.events ++
            [.apiGetReleaseByTag (sanitizeTagName (pkg.name ++ "-" ++ pkg.version))] }) := by
  have hmem' : sanitizeTagName (pkg.name ++ "-" ++ pkg.version) ∈ st.backend.releases := by
    simpa using hmem
  simp [cachePackage, checkReleaseExists, getReleaseByTagModel, emit, hfault, hmem']

/-- C2: when the existence check finds a release for the sanitized tag, the
item succeeds with no release creation, no downloads, no uploads, and no
change to the scratch directory or the backend. -/
theorem c2_exists_no_create (w : World) (pkg : PackageInfo) (deploy : Bool) (st : RunState)
    (hfault : w.lookupFault (sanitizeTagName (pkg.name ++ "-" ++ pkg.version)) = none)
    (hmem : st.backend.releases.contains (sanitizeTagName (pkg.name ++ "-" ++ pkg.version)) = true) :
    (cachePackage w pkg deploy st).1 = .ok true ∧
      countEvents isApiCreate (cachePackage w pkg deploy st).2.events =
        countEvents isApiCreate st.events ∧
      countEvents isApiUpload (cachePackage w pkg deploy st).2.events =
        countEvents isApiUpload st.events ∧
      countEvents isHttpGet (cachePackage w pkg deploy st).2.events =
        countEvents isHttpGet st.events ∧
      (cachePackage w pkg deploy st).2.disk = st.disk ∧
      (cachePackage w pkg deploy st).2.backend = st.backend := by
  rw [cachePackage_exists_branch w pkg deploy st hfault hmem]
  simp [countEvents, isApiCreate, isApiUpload, isHttpGet]

/-- A state in which the release `left-pad-1.3.0` already exists. -/
def leftPadCachedState : RunState :=
  { backend := { releases := ["left-pad-1.3.0"] }, disk := [], events := [] }

/-- C2 witness: with `left-pad-1.3.0` already released, the deploy-mode run
of the item reports success, calls no create/upload, performs no download,
and leaves disk and backend untouched. -/
theorem c2_exists_no_create_witness :
    (cachePackage (faultFreeWorld okServer) leftPadItem true leftPadCachedState).1 = .ok true ∧
      countEvents isApiCreate
        (cachePackage (faultFreeWorld okServer) leftPadItem true leftPadCachedState).2.events =
        countEvents isApiCreate leftPadCachedState.events ∧
      countEvents isApiUpload
        (cachePackage (faultFreeWorld okServer) leftPadItem true leftPadCachedState).2.events =
        countEvents isApiUpload leftPadCachedState.events ∧
      countEvents isHttpGet
        (cachePackage (faultFreeWorld okServer) leftPadItem true leftPadCachedState).2.events =
        countEvents isHttpGet leftPadCachedState.events ∧
      (cachePackage (faultFreeWorld okServer) leftPadItem true leftPadCachedState).2.disk =
        leftPadCachedState.disk ∧
      (cachePackage (faultFreeWorld okServer) leftPadItem true leftPadCachedState).2.backend =
        leftPadCachedState.backend :=
  c2_exists_no_create (faultFreeWorld okServer) leftPadItem true leftPadCachedState rfl
    (by decide)

/-! ### Preservation lemmas about the orchestration steps -/

/-- `emit` only appends an event. -/
theorem emit_backend (st : RunState) (e : Event) : (emit st e).backend = st.backend := rfl

/-- `emit` leaves the scratch directory alone. -/
theorem emit_disk (st : RunState) (e : Event) : (emit st e).disk = st.disk := rfl

/-- `addFile` leaves the backend alone. -/
theorem addFile_backend (st : RunState) (f : String) : (addFile st f).backend = st.backend := by
  unfold addFile
  split <;> rfl

/-- `addFile` emits nothing. -/
theorem addFile_events (st : RunState) (f : String) : (addFile st f).events = st.events := by
  unfold addFile
  split <;> rfl

/-- `removeFile` leaves the backend alone. -/
theorem removeFile_backend (st : RunState) (f : String) :
    (removeFile st f).backend = st.backend := rfl

/-- `removeFile` emits nothing. -/
theorem removeFile_events (st : RunState) (f : String) :
    (removeFile st f).events = st.events := rfl

/-- `cleanup` leaves the backend alone. -/
theorem cleanup_backend (files : List String) : ∀ st : RunState,
    (cleanup st files).backend = st.backend := by
  induction files with
  | nil => intro st; rfl
  | cons f fs ih =>
    intro st
    simpa [cleanup, List.foldl_cons] using ih (removeFile st f)

/-- `cleanup` emits nothing. -/
theorem cleanup_events (files : List String) : ∀ st : RunState,
    (cleanup st files).events = st.events := by
  induction files with
  | nil => intro st; rfl
  | cons f fs ih =>
    intro st
    simpa [cleanup, List.foldl_cons] using ih (removeFile st f)

/-- Counting distributes over appended event lists. -/
theorem countEvents_append (p : Event → Bool) (a b : List Event) :
    countEvents p (a ++ b) = countEvents p a + countEvents p b := by
  simp [countEvents, List.filter_append]

/-- GET events are invisible to a predicate that ignores them. -/
theorem countEvents_httpGets (p : Event → Bool) (hget : ∀ u, p (.httpGet u) = false)
    (urls : List String) : countEvents p (urls.map Event.httpGet) = 0 := by
  induction urls with
  | nil => rfl
  | cons u us ih => simpa [countEvents, List.filter_cons, hget u] using ih

/-- A single invisible event counts zero. -/
theorem countEvents_one (p : Event → Bool) (e : Event) (he : p e = false) :
    countEvents p [e] = 0 := by
  simp [countEvents, List.filter_cons, he]

/-- The state delivered by the existence check is the input state with the
single lookup event appended, whatever the verdict. -/
theorem checkReleaseExists_shape (w : World) (st : RunState) (name version : String) :
    ∃ r, checkReleaseExists w st name version =
      (r, { st with events := st.events ++
        [.apiGetReleaseByTag (sanitizeTagName (name ++ "-" ++ version))] }) := by
  unfold checkReleaseExists getReleaseByTagModel emit
  match hf : w.lookupFault (sanitizeTagName (name ++ "-" ++ version)) with
  | some s =>
    by_cases h4 : (s == 404) = true
    · exact ⟨.ok false, by simp [hf, h4]⟩
    · exact ⟨.error s, by simp [hf, h4]⟩
  | none =>
    by_cases hmem : sanitizeTagName (name ++ "-" ++ version) ∈ st.backend.releases
    · exact ⟨.ok true, by simp [hf, hmem]⟩
    · exact ⟨.ok false, by simp [hf, hmem]⟩

/-- Dry-run `createRelease` only logs. -/
theorem createRelease_dry_run (w : World) (st : RunState) (tag : String) :
    createRelease w st tag false =
      (.ok (), emit st (.log ("[DRY RUN] Would create release: " ++ tag))) := rfl

/-- Dry-run `uploadAsset` only logs. -/
theorem uploadAsset_dry_run (w : World) (st : RunState) (f : String) :
    uploadAsset w st f false =
      (.ok (), emit st (.log ("[DRY RUN] Would upload asset: " ++ f))) := rfl

/-- `uploadAsset` never touches backend or disk, whatever the mode. -/
theorem uploadAsset_backend_disk (w : World) (st : RunState) (f : String) (deploy : Bool) :
    (uploadAsset w st f deploy).2.backend = st.backend ∧
      (uploadAsset w st f deploy).2.disk = st.disk := by
  unfold uploadAsset
  split
  · match w.uploadFault f with
    | some s => exact ⟨rfl, rfl⟩
    | none => exact ⟨rfl, rfl⟩
  · exact ⟨rfl, rfl⟩

/-- `downloadToFile` never touches the backend. -/
theorem downloadToFile_backend (w : World) (st : RunState) (url fn : String) :
    (downloadToFile w st url fn).2.backend = st.backend := by
  simp only [downloadToFile]
  split <;> simp [removeFile, addFile_backend, emit_backend]

/-- The events appended by `downloadToFile`: the console line and the GETs. -/
theorem downloadToFile_events (w : World) (st : RunState) (url fn : String) :
    (downloadToFile w st url fn).2.events =
      st.events ++ Event.log ("Downloading " ++ fn ++ " from " ++ url) ::
        (downloadFile w.server url).2.map Event.httpGet := by
  simp only [downloadToFile]
  split <;> simp [removeFile, addFile_events, emit]

/-- `downloadToFile` emits no event visible to a predicate that ignores
console lines and GETs. -/
theorem downloadToFile_count (w : World) (st : RunState) (url fn : String)
    (p : Event → Bool) (hlog : ∀ l, p (.log l) = false)
    (hget : ∀ u, p (.httpGet u) = false) :
    countEvents p (downloadToFile w st url fn).2.events = countEvents p st.events := by
  rw [downloadToFile_events, countEvents_append]
  have h0 : countEvents p (Event.log ("Downloading " ++ fn ++ " from " ++ url) ::
      (downloadFile w.server url).2.map Event.httpGet) = 0 := by
    have h1 := countEvents_httpGets p hget (downloadFile w.server url).2
    simpa [countEvents, List.filter_cons, hlog] using h1
  rw [h0]
  exact Nat.add_zero _

/-- `uploadAsset` emits no event visible to a predicate that ignores
console lines and (in deploy mode) upload calls. -/
theorem uploadAsset_count (w : World) (st : RunState) (f : String) (deploy : Bool)
    (p : Event → Bool) (hlog : ∀ l, p (.log l) = false)
    (hup : deploy = true → ∀ g, p (.apiUploadAsset g) = false) :
    countEvents p (uploadAsset w st f deploy).2.events = countEvents p st.events := by
  cases deploy with
  | false =>
    simp [uploadAsset, emit, countEvents, List.filter_append, List.filter_cons, hlog]
  | true =>
    have hu := hup rfl
    simp only [uploadAsset, if_true]
    match hf : w.uploadFault f with
    | some s => simp [emit, countEvents, List.filter_append, List.filter_cons, hu]
    | none => simp [emit, countEvents, List.filter_append, List.filter_cons, hu]

/-- The platform loop never touches the backend. -/
theorem transferPlatforms_backend (w : World) (deploy : Bool) (cfg : PackageConfig)
    (version : String) :
    ∀ (targets : List PlatformTarget) (st : RunState) (files : List String),
      (transferPlatforms w deploy cfg version targets st files).2.1.backend = st.backend := by
  intro targets
  induction targets with
  | nil => intro st files; rfl
  | cons t rest ih =>
    intro st files
    simp only [transferPlatforms]
    rcases hdl : downloadToFile w st (cfg.getDownloadUrl version t.platform t.arch)
      (cfg.getFilename version t.platform t.arch) with ⟨r, st1⟩
    have hb1 : st1.backend = st.backend := by
      have := downloadToFile_backend w st (cfg.getDownloadUrl version t.platform t.arch)
        (cfg.getFilename version t.platform t.arch)
      rw [hdl] at this
      exact this
    cases r with
    | error e => simp [hdl, hb1]
    | ok u =>
      rcases hu : uploadAsset w st1 (cfg.getFilename version t.platform t.arch) deploy
        with ⟨r2, st2⟩
      have hb2 : st2.backend = st1.backend := by
        have := (uploadAsset_backend_disk w st1 (cfg.getFilename version t.platform t.arch)
          deploy).1
        rw [hu] at this
        exact this
      cases r2 with
      | error s => simp [hdl, hu, hb2, hb1]
      | ok u2 =>
        simp only [hdl, hu]
        rw [ih st2 (files ++ [cfg.getFilename version t.platform t.arch])]
        rw [hb2, hb1]

/-- The npm branch never touches the backend. -/
theorem transferNpm_backend (w : World) (deploy : Bool) (cfg : PackageConfig)
    (version : String) (st : RunState) (files : List String) :
    (transferNpm w deploy cfg version st files).2.1.backend = st.backend := by
  simp only [transferNpm]
  rcases hdl : downloadToFile w st (cfg.getDownloadUrl version "" "")
    (cfg.getFilename version "" "") with ⟨r, st1⟩
  have hb1 : st1.backend = st.backend := by
    have := downloadToFile_backend w st (cfg.getDownloadUrl version "" "")
      (cfg.getFilename version "" "")
    rw [hdl] at this
    exact this
  cases r with
  | error e => simp [hdl, hb1]
  | ok u =>
    rcases hu : uploadAsset w st1 (cfg.getFilename version "" "") deploy with ⟨r2, st2⟩
    have hb2 : st2.backend = st1.backend := by
      have := (uploadAsset_backend_disk w st1 (cfg.getFilename version "" "") deploy).1
      rw [hu] at this
      exact this
    cases r2 with
    | error s => simp [hdl, hu, hb2, hb1]
    | ok u2 => simp [hdl, hu, hb2, hb1]

/-- The platform loop emits only console lines, GETs and (in deploy mode)
upload calls. -/
theorem transferPlatforms_count (w : World) (deploy : Bool) (cfg : PackageConfig)
    (version : String) (p : Event → Bool)
    (hlog : ∀ l, p (.log l) = false) (hget : ∀ u, p (.httpGet u) = false)
    (hup : deploy = true → ∀ g, p (.apiUploadAsset g) = false) :
    ∀ (targets : List PlatformTarget) (st : RunState) (files : List String),
      countEvents p (transferPlatforms w deploy cfg version targets st files).2.1.events =
        countEvents p st.events := by
  intro targets
  induction targets with
  | nil => intro st files; rfl
  | cons t rest ih =>
    intro st files
    simp only [transferPlatforms]
    rcases hdl : downloadToFile w st (cfg.getDownloadUrl version t.platform t.arch)
      (cfg.getFilename version t.platform t.arch) with ⟨r, st1⟩
    have hc1 : countEvents p st1.events = countEvents p st.events := by
      have := downloadToFile_count w st (cfg.getDownloadUrl version t.platform t.arch)
        (cfg.getFilename version t.platform t.arch) p hlog hget
      rw [hdl] at this
      exact this
    cases r with
    | error e => simp [hdl, hc1]
    | ok u =>
      rcases hu : uploadAsset w st1 (cfg.getFilename version t.platform t.arch) deploy
        with ⟨r2, st2⟩
      have hc2 : countEvents p st2.events = countEvents p st1.events := by
        have := uploadAsset_count w st1 (cfg.getFilename version t.platform t.arch) deploy
          p hlog hup
        rw [hu] at this
        exact this
      cases r2 with
      | error s => simp [hdl, hu, hc2, hc1]
      | ok u2 =>
        simp only [hdl, hu]
        rw [ih st2 (files ++ [cfg.getFilename version t.platform t.arch])]
        rw [hc2, hc1]

/-- The npm branch emits only console lines, GETs and (in deploy mode)
upload calls. -/
theorem transferNpm_count (w : World) (deploy : Bool) (cfg : PackageConfig)
    (version : String) (p : Event → Bool)
    (hlog : ∀ l, p (.log l) = false) (hget : ∀ u, p (.httpGet u) = false)
    (hup : deploy = true → ∀ g, p (.apiUploadAsset g) = false)
    (st : RunState) (files : List String) :
    countEvents p (transferNpm w deploy cfg version st files).2.1.events =
      countEvents p st.events := by
  simp only [transferNpm]
  rcases hdl : downloadToFile w st (cfg.getDownloadUrl version "" "")
    (cfg.getFilename version "" "") with ⟨r, st1⟩
  have hc1 : countEvents p st1.events = countEvents p st.events := by
    have := downloadToFile_count w st (cfg.getDownloadUrl version "" "")
      (cfg.getFilename version "" "") p hlog hget
    rw [hdl] at this
    exact this
  cases r with
  | error e => simp [hdl, hc1]
  | ok u =>
    rcases hu : uploadAsset w st1 (cfg.getFilename version "" "") deploy with ⟨r2, st2⟩
    have hc2 : countEvents p st2.events = countEvents p st1.events := by
      have := uploadAsset_count w st1 (cfg.getFilename version "" "") deploy p hlog hup
      rw [hu] at this
      exact this
    cases r2 with
    | error s => simp [hdl, hu, hc2, hc1]
    | ok u2 => simp [hdl, hu, hc2, hc1]

/-- `createRelease` emits only a console line (dry run) or a create call
(deploy). -/
theorem createRelease_count (w : World) (st : RunState) (tag : String) (deploy : Bool)
    (p : Event → Bool) (hlog : ∀ l, p (.log l) = false)
    (hcreate : deploy = true → ∀ t, p (.apiCreateRelease t) = false) :
    countEvents p (createRelease w st tag deploy).2.events = countEvents p st.events := by
  cases deploy with
  | false =>
    simp [createRelease, emit, countEvents, List.filter_append, List.filter_cons, hlog]
  | true =>
    have hc := hcreate rfl
    simp only [createRelease, if_true]
    match hf : w.createFault tag with
    | some s => simp [emit, countEvents, List.filter_append, List.filter_cons, hc]
    | none => simp [emit, countEvents, List.filter_append, List.filter_cons, hc]

/-- Dry-run `createRelease` leaves the backend alone. -/
theorem createRelease_backend_dry (w : World) (st : RunState) (tag : String) :
    (createRelease w st tag false).2.backend = st.backend := rfl

/-- `cachePackage` emits only lookups, console lines, GETs, and (in deploy
mode) create and upload calls: any predicate blind to all of these counts
the same before and after. -/
theorem cachePackage_count_invisible (w : World) (pkg : PackageInfo) (deploy : Bool)
    (st : RunState) (p : Event → Bool)
    (hlog : ∀ l, p (.log l) = false) (hget : ∀ u, p (.httpGet u) = false)
    (hlook : ∀ t, p (.apiGetReleaseByTag t) = false)
    (hcreate : deploy = true → ∀ t, p (.apiCreateRelease t) = false)
    (hup : deploy = true → ∀ g, p (.apiUploadAsset g) = false) :
    countEvents p (cachePackage w pkg deploy st).2.events = countEvents p st.events := by
  obtain ⟨r, hr⟩ := checkReleaseExists_shape w st pkg.name pkg.version
  have hst1 : countEvents p (st.events ++
      [Event.apiGetReleaseByTag (sanitizeTagName (pkg.name ++ "-" ++ pkg.version))]) =
      countEvents p st.events := by
    simp [countEvents, List.filter_append, List.filter_cons, hlook]
  simp only [cachePackage, hr]
  cases r with
  | error s => simpa using hst1
  | ok b =>
    cases b with
    | true => simpa using hst1
    | false =>
      rcases hcr : createRelease w
        { st with events := st.events ++
          [Event.apiGetReleaseByTag (sanitizeTagName (pkg.name ++ "-" ++ pkg.version))] }
        (sanitizeTagName (pkg.name ++ "-" ++ pkg.version)) deploy with ⟨r2, st2⟩
      have hc2 : countEvents p st2.events = countEvents p st.events := by
        have := createRelease_count w
          { st with events := st.events ++
            [Event.apiGetReleaseByTag (sanitizeTagName (pkg.name ++ "-" ++ pkg.version))] }
          (sanitizeTagName (pkg.name ++ "-" ++ pkg.version)) deploy p hlog hcreate
        rw [hcr] at this
        simpa [hst1] using this
      cases r2 with
      | error s => simpa [hcr] using hc2
      | ok u =>
        simp only [hcr]
        cases pkg.type with
        | binary =>
          simp only [cleanup_events]
          rw [transferPlatforms_count w deploy pkg.config pkg.version p hlog hget hup
            pkg.config.platforms st2 []]
          exact hc2
        | npm =>
          simp only [cleanup_events]
          rw [transferNpm_count w deploy pkg.config pkg.version p hlog hget hup st2 []]
          exact hc2

/-- In dry-run mode `cachePackage` leaves the backend alone. -/
theorem cachePackage_backend_dry (w : World) (pkg : PackageInfo) (st : RunState) :
    (cachePackage w pkg false st).2.backend = st.backend := by
  obtain ⟨r, hr⟩ := checkReleaseExists_shape w st pkg.name pkg.version
  simp only [cachePackage, hr]
  cases r with
  | error s => rfl
  | ok b =>
    cases b with
    | true => rfl
    | false =>
      rcases hcr : createRelease w
        { st with events := st.events ++
          [Event.apiGetReleaseByTag (sanitizeTagName (pkg.name ++ "-" ++ pkg.version))] }
        (sanitizeTagName (pkg.name ++ "-" ++ pkg.version)) false with ⟨r2, st2⟩
      have hb2 : st2.backend = st.backend := by
        have := createRelease_backend_dry w
          { st with events := st.events ++
            [Event.apiGetReleaseByTag (sanitizeTagName (pkg.name ++ "-" ++ pkg.version))] }
          (sanitizeTagName (pkg.name ++ "-" ++ pkg.version))
        rw [hcr] at this
        exact this
      cases r2 with
      | error s => simpa [hcr] using hb2
      | ok u =>
        simp only [hcr]
        cases pkg.type with
        | binary =>
          simp only [cleanup_backend]
          rw [transferPlatforms_backend w false pkg.config pkg.version
            pkg.config.platforms st2 []]
          exact hb2
        | npm =>
          simp only [cleanup_backend]
          rw [transferNpm_backend w false pkg.config pkg.version st2 []]
          exact hb2

/-- The batch wrapper only repackages the loop's result. -/
theorem runBatch_state (w : World) (items : List PackageInfo) (deploy : Bool) (st : RunState) :
    (runBatch w items deploy st).2 = (runItems w deploy items st 0).2 := by
  simp only [runBatch]
  rcases h : runItems w deploy items st 0 with ⟨r, st2⟩
  cases r <;> simp

/-- The dry-run loop changes neither the mutating-event count nor the
backend, whatever the predicate blind to its events says. -/
theorem runItems_dry (w : World) (p : Event → Bool)
    (hlog : ∀ l, p (.log l) = false) (hget : ∀ u, p (.httpGet u) = false)
    (hlook : ∀ t, p (.apiGetReleaseByTag t) = false) :
    ∀ (items : List PackageInfo) (st : RunState) (n : Nat),
      countEvents p (runItems w false items st n).2.events = countEvents p st.events ∧
        (runItems w false items st n).2.backend = st.backend := by
  intro items
  induction items with
  | nil => intro st n; exact ⟨rfl, rfl⟩
  | cons q rest ih =>
    intro st n
    simp only [runItems]
    rcases hcp : cachePackage w q false st with ⟨r, st2⟩
    have hc : countEvents p st2.events = countEvents p st.events := by
      have := cachePackage_count_invisible w q false st p hlog hget hlook
        (fun h => absurd h (by simp)) (fun h => absurd h (by simp))
      rw [hcp] at this
      exact this
    have hb : st2.backend = st.backend := by
      have := cachePackage_backend_dry w q st
      rw [hcp] at this
      exact this
    cases r with
    | error e => exact ⟨hc, hb⟩
    | ok b =>
      have := ih st2 (if b then n + 1 else n)
      exact ⟨by rw [this.1, hc], by rw [this.2, hb]⟩

/-- C5: with `deploy = false` the whole batch never calls create-release
or upload-asset on the backend, and the remote release state afterwards is
exactly what it was before — indistinguishable from never having run.
This holds for every item list and every collaborator behaviour. -/
theorem c5_dry_run_no_mutation (w : World) (items : List PackageInfo) (st : RunState) :
    countEvents isMutatingApi (runBatch w items false st).2.events =
        countEvents isMutatingApi st.events ∧
      (runBatch w items false st).2.backend = st.backend := by
  rw [runBatch_state]
  exact runItems_dry w isMutatingApi (fun _ => rfl) (fun _ => rfl) (fun _ => rfl) items st 0

/-! ### C1: what escapes `cachePackage` and what is caught -/

/-- The faults under which an item's processing never throws past
`cachePackage`: the lookup either succeeds or reports not-found, and (in
deploy mode) release creation succeeds.  Download and upload failures stay
unrestricted. -/
def benignFaults (w : World) (deploy : Bool) (pkg : PackageInfo) : Prop :=
  (w.lookupFault (sanitizeTagName (pkg.name ++ "-" ++ pkg.version)) = none ∨
      w.lookupFault (sanitizeTagName (pkg.name ++ "-" ++ pkg.version)) = some 404) ∧
    (deploy = true → w.createFault (sanitizeTagName (pkg.name ++ "-" ++ pkg.version)) = none)

/-- Under a benign lookup the existence check cannot throw. -/
theorem checkReleaseExists_benign (w : World) (st : RunState) (name version : String)
    (hb : w.lookupFault (sanitizeTagName (name ++ "-" ++ version)) = none ∨
      w.lookupFault (sanitizeTagName (name ++ "-" ++ version)) = some 404) :
    ∃ b, checkReleaseExists w st name version =
      (.ok b, { st with events := st.events ++
        [.apiGetReleaseByTag (sanitizeTagName (name ++ "-" ++ version))] }) := by
  unfold checkReleaseExists getReleaseByTagModel emit
  rcases hb with h | h
  · by_cases hmem : sanitizeTagName (name ++ "-" ++ version) ∈ st.backend.releases
    · exact ⟨true, by simp [h, hmem]⟩
    · exact ⟨false, by simp [h, hmem]⟩
  · exact ⟨false, by simp [h]⟩

/-- Under a benign create fault the release creation cannot throw, and it
emits no lookup event. -/
theorem createRelease_benign (w : World) (st : RunState) (tag : String) (deploy : Bool)
    (hc : deploy = true → w.createFault tag = none) :
    (createRelease w st tag deploy).1 = .ok () ∧
      countEvents isApiGetRelease (createRelease w st tag deploy).2.events =
        countEvents isApiGetRelease st.events := by
  cases deploy with
  | false =>
    refine ⟨rfl, ?_⟩
    simp [createRelease, emit, countEvents, List.filter_append, List.filter_cons,
      isApiGetRelease]
  | true =>
    have h := hc rfl
    constructor
    · simp [createRelease, h]
    · simp [createRelease, h, emit, countEvents, List.filter_append, List.filter_cons,
        isApiGetRelease]

/-- With benign faults, `cachePackage` always returns a verdict (never
throws) and performs exactly one existence lookup. -/
theorem cachePackage_benign (w : World) (pkg : PackageInfo) (deploy : Bool) (st : RunState)
    (hb : benignFaults w deploy pkg) :
    exceptIsOk (cachePackage w pkg deploy st).1 = true ∧
      countEvents isApiGetRelease (cachePackage w pkg deploy st).2.events =
        countEvents isApiGetRelease st.events + 1 := by
  obtain ⟨b, hr⟩ := checkReleaseExists_benign w st pkg.name pkg.version hb.1
  have hst1 : countEvents isApiGetRelease (st.events ++
      [Event.apiGetReleaseByTag (sanitizeTagName (pkg.name ++ "-" ++ pkg.version))]) =
      countEvents isApiGetRelease st.events + 1 := by
    simp [countEvents, List.filter_append, List.filter_cons, isApiGetRelease]
  simp only [cachePackage, hr]
  cases b with
  | true => exact ⟨rfl, hst1⟩
  | false =>
    rcases hcr : createRelease w
      { st with events := st.events ++
        [Event.apiGetReleaseByTag (sanitizeTagName (pkg.name ++ "-" ++ pkg.version))] }
      (sanitizeTagName (pkg.name ++ "-" ++ pkg.version)) deploy with ⟨r2, st2⟩
    have hben := createRelease_benign w
      { st with events := st.events ++
        [Event.apiGetReleaseByTag (sanitizeTagName (pkg.name ++ "-" ++ pkg.version))] }
      (sanitizeTagName (pkg.name ++ "-" ++ pkg.version)) deploy hb.2
    rw [hcr] at hben
    have hr2 : r2 = .ok () := hben.1
    subst hr2
    have hc2 : countEvents isApiGetRelease st2.events =
        countEvents isApiGetRelease st.events + 1 := by
      rw [hben.2, hst1]
    simp only [hcr]
    constructor
    · cases pkg.type with
      | binary =>
        rcases ht : (transferPlatforms w deploy pkg.config pkg.version
          pkg.config.platforms st2 []).1 with r3 | r3 <;> simp [ht, exceptIsOk]
      | npm =>
        rcases ht : (transferNpm w deploy pkg.config pkg.version st2 []).1
          with r3 | r3 <;> simp [ht, exceptIsOk]
    · cases pkg.type with
      | binary =>
        simp only [cleanup_events]
        rw [transferPlatforms_count w deploy pkg.config pkg.version isApiGetRelease
          (fun _ => rfl) (fun _ => rfl) (fun _ _ => rfl) pkg.config.platforms st2 []]
        exact hc2
      | npm =>
        simp only [cleanup_events]
        rw [transferNpm_count w deploy pkg.config pkg.version isApiGetRelease
          (fun _ => rfl) (fun _ => rfl) (fun _ _ => rfl) st2 []]
        exact hc2

/-- With benign faults on every item the loop reaches the end of the list,
one lookup per item. -/
theorem runItems_benign (w : World) (deploy : Bool) :
    ∀ (items : List PackageInfo) (st : RunState) (n : Nat),
      (∀ pkg ∈ items, benignFaults w deploy pkg) →
      exceptIsOk (runItems w deploy items st n).1 = true ∧
        countEvents isApiGetRelease (runItems w deploy items st n).2.events =
          countEvents isApiGetRelease st.events + items.length := by
  intro items
  induction items with
  | nil => intro st n _; exact ⟨rfl, by simp [runItems]⟩
  | cons q rest ih =>
    intro st n hb
    simp only [runItems]
    rcases hcp : cachePackage w q deploy st with ⟨r, st2⟩
    have h1 := cachePackage_benign w q deploy st (hb q (by simp))
    rw [hcp] at h1
    cases r with
    | error e => simp [exceptIsOk] at h1
    | ok b =>
      have h2 := ih st2 (if b then n + 1 else n) (fun pkg hp => hb pkg (by simp [hp]))
      refine ⟨h2.1, ?_⟩
      rw [h2.2, h1.2]
      simp only [List.length_cons]
      omega

/-- C1 (amended): only failures of the download/upload phase are caught at
the `cachePackage` boundary and turned into a `success = false` result.
When every item's existence check either succeeds or reports not-found and
(in deploy mode) every release creation succeeds, no error escapes: the
batch visits all items, one existence lookup each, and the run completes.
A non-404 lookup error or a creation error, by contrast, escapes
`cachePackage` and aborts the whole process (see the counterexample). -/
theorem c1_amended (w : World) (deploy : Bool) (items : List PackageInfo) (st : RunState)
    (hb : ∀ pkg ∈ items, benignFaults w deploy pkg) :
    exceptIsOk (runBatch w items deploy st).1 = true ∧
      countEvents isApiGetRelease (runBatch w items deploy st).2.events =
        countEvents isApiGetRelease st.events + items.length := by
  have h := runItems_benign w deploy items st 0 hb
  constructor
  · simp only [runBatch]
    rcases hr : runItems w deploy items st 0 with ⟨r, st2⟩
    rw [hr] at h
    cases r with
    | ok s => rfl
    | error e => simp [exceptIsOk] at h
  · rw [runBatch_state]
    exact h.2

/-- A world whose release lookup rate-limits (HTTP 403) exactly on the tag
of `left-pad-1.3.0`. -/
def c1World : World :=
  { server := okServer
    lookupFault := fun t => if t == "left-pad-1.3.0" then some 403 else none
    createFault := fun _ => none
    uploadFault := fun _ => none }

/-- A two-dependency manifest: `left-pad` first, `is-odd` second. -/
def c1Manifest : PackageJson :=
  { dependencies := [("left-pad", "~1.3.0"), ("is-odd", "1.0.0")],
    devDependencies := [] }

/-- C1 (corrected, counterexample): a 403 from the existence check of the
first work item is not converted into a `success = false` result — the
check sits outside `cachePackage`'s try block, so the error escapes, the
second item is never looked up (one lookup event in total), and the
surviving error reaches `main().catch`, which exits the process. -/
theorem c1_counterexample :
    (runBatch c1World (getAllPackages c1Manifest) false emptyState).1 = .error (.api 403) ∧
      countEvents isApiGetRelease
        (runBatch c1World (getAllPackages c1Manifest) false emptyState).2.events = 1 := by
  constructor
  · rfl
  · decide

/-- C1 witness: with no backend faults (downloads may still fail — here
every download gets a 500), the batch completes and looks up each of its
items once. -/
theorem c1_amended_witness :
    exceptIsOk
        (runBatch (faultFreeWorld badServer) (getAllPackages leftPadManifest) true
          emptyState).1 = true ∧
      countEvents isApiGetRelease
          (runBatch (faultFreeWorld badServer) (getAllPackages leftPadManifest) true
            emptyState).2.events =
        countEvents isApiGetRelease emptyState.events +
          (getAllPackages leftPadManifest).length :=
  c1_amended (faultFreeWorld badServer) true (getAllPackages leftPadManifest) emptyState
    (fun _ _ => ⟨Or.inl rfl, fun _ => rfl⟩)

/-! ### Scratch-directory lemmas -/

/-- After `addFile` the file is on disk. -/
theorem mem_addFile_self (st : RunState) (f : String) : f ∈ (addFile st f).disk := by
  unfold addFile
  split
  · rename_i h
    simpa using h
  · simp

/-- `addFile` adds nothing but its file. -/
theorem mem_addFile (st : RunState) (f g : String) (h : g ∈ (addFile st f).disk) :
    g ∈ st.disk ∨ g = f := by
  unfold addFile at h
  split at h
  · exact Or.inl h
  · simpa using h

/-- After `removeFile` the file is gone. -/
theorem not_mem_removeFile (st : RunState) (f : String) : f ∉ (removeFile st f).disk := by
  simp [removeFile, List.mem_filter]

/-- `removeFile` only removes. -/
theorem mem_removeFile_imp (st : RunState) (f g : String)
    (h : g ∈ (removeFile st f).disk) : g ∈ st.disk := by
  simp only [removeFile, List.mem_filter] at h
  exact h.1

/-- What survives `cleanup`: exactly the files not in the removal list. -/
theorem mem_cleanup_iff (files : List String) : ∀ (st : RunState) (f : String),
    f ∈ (cleanup st files).disk ↔ (f ∈ st.disk ∧ f ∉ files) := by
  induction files with
  | nil => intro st f; simp [cleanup]
  | cons g gs ih =>
    intro st f
    have hrw : cleanup st (g :: gs) = cleanup (removeFile st g) gs := rfl
    rw [hrw, ih]
    simp only [removeFile, List.mem_filter, bne_iff_ne, ne_eq, List.mem_cons]
    constructor
    · rintro ⟨⟨h1, h2⟩, h3⟩
      exact ⟨h1, by simp [h2, h3]⟩
    · rintro ⟨h1, h2⟩
      simp only [not_or] at h2
      exact ⟨⟨h1, h2.1⟩, h2.2⟩

/-- Only the transport error deletes the destination file. -/
theorem downloadToFile_transport_deletes (w : World) (st : RunState) (url fn : String)
    (h : (downloadToFile w st url fn).1 = .error .transport) :
    fn ∉ (downloadToFile w st url fn).2.disk := by
  simp only [downloadToFile] at h ⊢
  rcases hdl : (downloadFile w.server url).1 with e | u
  · cases e with
    | transport =>
      simp only [hdl]
      exact not_mem_removeFile _ fn
    | tooManyRedirects n => rw [hdl] at h; simp at h
    | noLocation c => rw [hdl] at h; simp at h
    | badStatus c => rw [hdl] at h; simp at h
  · rw [hdl] at h; simp at h

/-- On every other outcome — success included — the destination file is on
disk when `downloadToFile` returns. -/
theorem downloadToFile_other_keeps (w : World) (st : RunState) (url fn : String)
    (h : (downloadToFile w st url fn).1 ≠ .error .transport) :
    fn ∈ (downloadToFile w st url fn).2.disk := by
  simp only [downloadToFile] at h ⊢
  rcases hdl : (downloadFile w.server url).1 with e | u
  · cases e with
    | transport => rw [hdl] at h; simp at h
    | tooManyRedirects n =>
      simp only [hdl]
      exact mem_addFile_self _ fn
    | noLocation c =>
      simp only [hdl]
      exact mem_addFile_self _ fn
    | badStatus c =>
      simp only [hdl]
      exact mem_addFile_self _ fn
  · simp only [hdl]
    exact mem_addFile_self _ fn

/-- `downloadToFile` creates no file other than its destination. -/
theorem downloadToFile_disk_subset (w : World) (st : RunState) (url fn g : String)
    (hg : g ∈ (downloadToFile w st url fn).2.disk) : g ∈ st.disk ∨ g = fn := by
  simp only [downloadToFile] at hg
  rcases hdl : (downloadFile w.server url).1 with e | u
  · cases e with
    | transport =>
      rw [hdl] at hg
      have h1 := mem_removeFile_imp _ fn g hg
      exact mem_addFile (emit st (.log ("Downloading " ++ fn ++ " from " ++ url))) fn g h1
    | tooManyRedirects n =>
      rw [hdl] at hg
      exact mem_addFile (emit st (.log ("Downloading " ++ fn ++ " from " ++ url))) fn g hg
    | noLocation c =>
      rw [hdl] at hg
      exact mem_addFile (emit st (.log ("Downloading " ++ fn ++ " from " ++ url))) fn g hg
    | badStatus c =>
      rw [hdl] at hg
      exact mem_addFile (emit st (.log ("Downloading " ++ fn ++ " from " ++ url))) fn g hg
  · rw [hdl] at hg
    exact mem_addFile (emit st (.log ("Downloading " ++ fn ++ " from " ++ url))) fn g hg

/-- When the platform loop succeeds, every file on disk afterwards was
there before or is recorded in the returned `downloadedFiles`, and the
recorded list keeps everything it started with. -/
theorem transferPlatforms_ok_disk (w : World) (deploy : Bool) (cfg : PackageConfig)
    (version : String) :
    ∀ (targets : List PlatformTarget) (st : RunState) (files : List String)
      (st2 : RunState) (files2 : List String),
      transferPlatforms w deploy cfg version targets st files = (.ok (), st2, files2) →
      (∀ f, f ∈ st2.disk → f ∈ st.disk ∨ f ∈ files2) ∧ (∀ f, f ∈ files → f ∈ files2) := by
  intro targets
  induction targets with
  | nil =>
    intro st files st2 files2 h
    simp only [transferPlatforms, Prod.mk.injEq] at h
    obtain ⟨-, h2, h3⟩ := h
    subst h2
    subst h3
    exact ⟨fun f hf => Or.inl hf, fun f hf => hf⟩
  | cons t rest ih =>
    intro st files st2 files2 h
    simp only [transferPlatforms] at h
    rcases hdl : downloadToFile w st (cfg.getDownloadUrl version t.platform t.arch)
      (cfg.getFilename version t.platform t.arch) with ⟨r, st1⟩
    simp only [hdl] at h
    cases r with
    | error e => simp at h
    | ok u =>
      rcases hu : uploadAsset w st1 (cfg.getFilename version t.platform t.arch) deploy
        with ⟨r2, stu⟩
      simp only [hu] at h
      cases r2 with
      | error s => simp at h
      | ok u2 =>
        have hud : stu.disk = st1.disk := by
          have h2 := (uploadAsset_backend_disk w st1
            (cfg.getFilename version t.platform t.arch) deploy).2
          rw [hu] at h2
          exact h2
        obtain ⟨ihA, ihB⟩ := ih stu (files ++ [cfg.getFilename version t.platform t.arch])
          st2 files2 h
        constructor
        · intro f hf
          rcases ihA f hf with h1 | h1
          · rw [hud] at h1
            have h1x : f ∈ (downloadToFile w st (cfg.getDownloadUrl version t.platform t.arch)
                (cfg.getFilename version t.platform t.arch)).2.disk := by
              rw [hdl]
              exact h1
            rcases downloadToFile_disk_subset w st
              (cfg.getDownloadUrl version t.platform t.arch)
              (cfg.getFilename version t.platform t.arch) f h1x with h2 | h2
            · exact Or.inl h2
            · refine Or.inr (ihB f ?_)
              simp [h2]
          · exact Or.inr h1
        · intro f hf
          exact ihB f (by simp [hf])

/-- The npm-branch analogue of `transferPlatforms_ok_disk`. -/
theorem transferNpm_ok_disk (w : World) (deploy : Bool) (cfg : PackageConfig)
    (version : String) (st : RunState) (files : List String)
    (st2 : RunState) (files2 : List String)
    (h : transferNpm w deploy cfg version st files = (.ok (), st2, files2)) :
    (∀ f, f ∈ st2.disk → f ∈ st.disk ∨ f ∈ files2) ∧ (∀ f, f ∈ files → f ∈ files2) := by
  simp only [transferNpm] at h
  rcases hdl : downloadToFile w st (cfg.getDownloadUrl version "" "")
    (cfg.getFilename version "" "") with ⟨r, st1⟩
  simp only [hdl] at h
  cases r with
  | error e => simp at h
  | ok u =>
    rcases hu : uploadAsset w st1 (cfg.getFilename version "" "") deploy with ⟨r2, stu⟩
    simp only [hu] at h
    cases r2 with
    | error s => simp at h
    | ok u2 =>
      simp only [Prod.mk.injEq] at h
      obtain ⟨-, h2, h3⟩ := h
      subst h2
      subst h3
      have hud : stu.disk = st1.disk := by
        have hx := (uploadAsset_backend_disk w st1 (cfg.getFilename version "" "") deploy).2
        rw [hu] at hx
        exact hx
      constructor
      · intro f hf
        rw [hud] at hf
        have h1x : f ∈ (downloadToFile w st (cfg.getDownloadUrl version "" "")
            (cfg.getFilename version "" "")).2.disk := by
          rw [hdl]
          exact hf
        rcases downloadToFile_disk_subset w st (cfg.getDownloadUrl version "" "")
          (cfg.getFilename version "" "") f h1x with h2 | h2
        · exact Or.inl h2
        · exact Or.inr (by simp [h2])
      · intro f hf
        simp [hf]

/-- `createRelease` never touches the scratch directory. -/
theorem createRelease_disk (w : World) (st : RunState) (tag : String) (deploy : Bool) :
    (createRelease w st tag deploy).2.disk = st.disk := by
  unfold createRelease
  split
  · match w.createFault tag with
    | some s => rfl
    | none => rfl
  · rfl

/-- A work item that succeeds leaves an initially empty scratch directory
empty: either nothing was allocated (already-cached branch) or every
downloaded file is removed by the `finally` cleanup. -/
theorem cachePackage_success_clean (w : World) (pkg : PackageInfo) (deploy : Bool)
    (st : RunState) (hdisk : st.disk = [])
    (hok : (cachePackage w pkg deploy st).1 = .ok true) :
    (cachePackage w pkg deploy st).2.disk = [] := by
  obtain ⟨r, hr⟩ := checkReleaseExists_shape w st pkg.name pkg.version
  simp only [cachePackage, hr] at hok ⊢
  cases r with
  | error s => simp at hok
  | ok b =>
    cases b with
    | true => exact hdisk
    | false =>
      rcases hcr : createRelease w
        { st with events := st.events ++
          [Event.apiGetReleaseByTag (sanitizeTagName (pkg.name ++ "-" ++ pkg.version))] }
        (sanitizeTagName (pkg.name ++ "-" ++ pkg.version)) deploy with ⟨r2, st2⟩
      simp only [hcr] at hok ⊢
      cases r2 with
      | error s => simp at hok
      | ok u =>
        have hd2 : st2.disk = [] := by
          have hx := createRelease_disk w
            { st with events := st.events ++
              [Event.apiGetReleaseByTag (sanitizeTagName (pkg.name ++ "-" ++ pkg.version))] }
            (sanitizeTagName (pkg.name ++ "-" ++ pkg.version)) deploy
          rw [hcr] at hx
          rw [hx]
          exact hdisk
        cases hty : pkg.type with
        | binary =>
          rw [hty] at hok
          have hok2 : (match (transferPlatforms w deploy pkg.config pkg.version
              pkg.config.platforms st2 []).1 with
            | Except.ok _ => (Except.ok true : Except Thrown Bool)
            | Except.error _ => Except.ok false) = Except.ok true := hok
          show (cleanup (transferPlatforms w deploy pkg.config pkg.version
              pkg.config.platforms st2 []).2.1
            (transferPlatforms w deploy pkg.config pkg.version
              pkg.config.platforms st2 []).2.2).disk = []
          rcases hts : transferPlatforms w deploy pkg.config pkg.version
            pkg.config.platforms st2 [] with ⟨r3, st3, files3⟩
          rw [hts] at hok2
          cases r3 with
          | error e => simp at hok2
          | ok u3 =>
            cases u3
            obtain ⟨hA, -⟩ := transferPlatforms_ok_disk w deploy pkg.config pkg.version
              pkg.config.platforms st2 [] st3 files3 hts
            show (cleanup st3 files3).disk = []
            refine List.eq_nil_iff_forall_not_mem.mpr (fun f hf => ?_)
            rw [mem_cleanup_iff files3 st3 f] at hf
            rcases hA f hf.1 with h1 | h1
            · rw [hd2] at h1
              simp at h1
            · exact hf.2 h1
        | npm =>
          rw [hty] at hok
          have hok2 : (match (transferNpm w deploy pkg.config pkg.version st2 []).1 with
            | Except.ok _ => (Except.ok true : Except Thrown Bool)
            | Except.error _ => Except.ok false) = Except.ok true := hok
          show (cleanup (transferNpm w deploy pkg.config pkg.version st2 []).2.1
            (transferNpm w deploy pkg.config pkg.version st2 []).2.2).disk = []
          rcases hts : transferNpm w deploy pkg.config pkg.version st2 []
            with ⟨r3, st3, files3⟩
          rw [hts] at hok2
          cases r3 with
          | error e => simp at hok2
          | ok u3 =>
            cases u3
            obtain ⟨hA, -⟩ := transferNpm_ok_disk w deploy pkg.config pkg.version
              st2 [] st3 files3 hts
            show (cleanup st3 files3).disk = []
            refine List.eq_nil_iff_forall_not_mem.mpr (fun f hf => ?_)
            rw [mem_cleanup_iff files3 st3 f] at hf
            rcases hA f hf.1 with h1 | h1
            · rw [hd2] at h1
              simp at h1
            · exact hf.2 h1

/-- C3 (corrected, counterexample): the left-pad item's download receives a
terminal 500; the item ends as a caught failure (summary 0 of 1), yet the
file created by opening the write stream is still under the scratch path
after the batch — the non-transport failure paths of `downloadFile` do not
unlink, and the path was never recorded in `downloadedFiles`, so the
`finally` cleanup does not remove it either. -/
theorem c3_counterexample :
    (runBatch (faultFreeWorld badServer) (getAllPackages leftPadManifest) false
        emptyState).1 = .ok (0, 1) ∧
      (runBatch (faultFreeWorld badServer) (getAllPackages leftPadManifest) false
          emptyState).2.disk = ["left-pad-1.3.0.tgz"] := by
  constructor
  · rfl
  · rfl

/-- C3 (amended): only the transport-error path of a download deletes the
partially written destination file before the error propagates; on the
other failure modes (non-2xx terminal status, redirect without Location,
redirect limit) the file remains on disk.  The full cleanup guarantee holds
for items that succeed: a work item that reports success leaves an
initially empty scratch directory empty. -/
theorem c3_amended (wd : World) (std : RunState) (url fn : String)
    (wc : World) (pkg : PackageInfo) (deploy : Bool) (stc : RunState)
    (hdisk : stc.disk = []) (hok : (cachePackage wc pkg deploy stc).1 = .ok true) :
    ((downloadToFile wd std url fn).1 = .error .transport →
        fn ∉ (downloadToFile wd std url fn).2.disk) ∧
      ((downloadToFile wd std url fn).1 ≠ .error .transport →
        fn ∈ (downloadToFile wd std url fn).2.disk) ∧
      (cachePackage wc pkg deploy stc).2.disk = [] :=
  ⟨downloadToFile_transport_deletes wd std url fn,
    downloadToFile_other_keeps wd std url fn,
    cachePackage_success_clean wc pkg deploy stc hdisk hok⟩

/-- C3 witness: a transport-failing download of `f.zip` (deleted), and the
dry-run left-pad item that succeeds against a 200-server leaving the
scratch directory empty. -/
theorem c3_amended_witness :
    (((downloadToFile (faultFreeWorld connFailServer) emptyState
          "https://u.example/f" "f.zip").1 = .error .transport →
        "f.zip" ∉ (downloadToFile (faultFreeWorld connFailServer) emptyState
          "https://u.example/f" "f.zip").2.disk) ∧
      ((downloadToFile (faultFreeWorld connFailServer) emptyState
          "https://u.example/f" "f.zip").1 ≠ .error .transport →
        "f.zip" ∈ (downloadToFile (faultFreeWorld connFailServer) emptyState
          "https://u.example/f" "f.zip").2.disk) ∧
      (cachePackage (faultFreeWorld okServer) leftPadItem false emptyState).2.disk = []) :=
  c3_amended (faultFreeWorld connFailServer) emptyState "https://u.example/f" "f.zip"
    (faultFreeWorld okServer) leftPadItem false emptyState rfl rfl

/-- C4 (corrected, counterexample): the dry run over the cypress manifest
prints zero "would download" lines (the dry-run lines are about uploads and
release creation) and really performs the three platform downloads — three
network GETs — contradicting both "exactly 3 would-download log lines" and
"no actual data transfer". -/
theorem c4_counterexample :
    countEvents isWouldDownloadLog
        (runBatch (faultFreeWorld okServer) (getAllPackages cypressManifest) false
          emptyState).2.events = 0 ∧
      countEvents isHttpGet
        (runBatch (faultFreeWorld okServer) (getAllPackages cypressManifest) false
          emptyState).2.events = 3 := by
  constructor
  · decide
  · decide

/-- C4 (amended): the dry run over the cypress manifest performs no remote
mutation — zero create-release and zero upload-asset calls — reports the
summary 1 of 1 succeeded, and prints exactly three `[DRY RUN] Would upload
asset` lines; the three per-platform downloads, however, are really
executed (three GETs). -/
theorem c4_amended :
    (runBatch (faultFreeWorld okServer) (getAllPackages cypressManifest) false
        emptyState).1 = .ok (1, 1) ∧
      countEvents isWouldUploadLog
        (runBatch (faultFreeWorld okServer) (getAllPackages cypressManifest) false
          emptyState).2.events = 3 ∧
      countEvents isApiCreate
        (runBatch (faultFreeWorld okServer) (getAllPackages cypressManifest) false
          emptyState).2.events = 0 ∧
      countEvents isApiUpload
        (runBatch (faultFreeWorld okServer) (getAllPackages cypressManifest) false
          emptyState).2.events = 0 ∧
      countEvents isHttpGet
        (runBatch (faultFreeWorld okServer) (getAllPackages cypressManifest) false
          emptyState).2.events = 3 := by
  refine ⟨rfl, ?_, ?_, ?_, ?_⟩ <;> decide

/-! ### C10: no rollback of created releases -/

/-- Existence check when the release is genuinely absent. -/
theorem checkReleaseExists_absent (w : World) (st : RunState) (name version : String)
    (hlf : w.lookupFault (sanitizeTagName (name ++ "-" ++ version)) = none)
    (hnm : sanitizeTagName (name ++ "-" ++ version) ∉ st.backend.releases) :
    checkReleaseExists w st name version =
      (.ok false, { st with events := st.events ++
        [.apiGetReleaseByTag (sanitizeTagName (name ++ "-" ++ version))] }) := by
  unfold checkReleaseExists getReleaseByTagModel emit
  simp [hlf, hnm]

/-- Deploy-mode `createRelease` without a fault: the release now exists. -/
theorem createRelease_deploy_ok (w : World) (st : RunState) (tag : String)
    (hcf : w.createFault tag = none) :
    createRelease w st tag true =
      (.ok (),
        { backend := Backend.mk (tag :: st.backend.releases),
          disk := st.disk,
          events := st.events ++ [.apiCreateRelease tag] }) := by
  simp [createRelease, hcf, emit]

/-- In deploy mode, when the release is absent, the lookup is clean and the
creation succeeds, the item's final backend state has the new tag in front
— whatever happens to the downloads and uploads afterwards. -/
theorem cachePackage_creates (w : World) (pkg : PackageInfo) (st : RunState)
    (hlf : w.lookupFault (sanitizeTagName (pkg.name ++ "-" ++ pkg.version)) = none)
    (hcf : w.createFault (sanitizeTagName (pkg.name ++ "-" ++ pkg.version)) = none)
    (hnm : sanitizeTagName (pkg.name ++ "-" ++ pkg.version) ∉ st.backend.releases) :
    (cachePackage w pkg true st).2.backend.releases =
      sanitizeTagName (pkg.name ++ "-" ++ pkg.version) :: st.backend.releases := by
  have hce := checkReleaseExists_absent w st pkg.name pkg.version hlf hnm
  have hcr := createRelease_deploy_ok w
    { st with events := st.events ++
      [Event.apiGetReleaseByTag (sanitizeTagName (pkg.name ++ "-" ++ pkg.version))] }
    (sanitizeTagName (pkg.name ++ "-" ++ pkg.version)) hcf
  simp only [cachePackage, hce, hcr]
  rw [cleanup_backend]
  cases hty : pkg.type with
  | binary =>
    rw [transferPlatforms_backend w true pkg.config pkg.version pkg.config.platforms _ []]
  | npm =>
    rw [transferNpm_backend w true pkg.config pkg.version _ []]

/-- C10: in deploy mode a created release is never rolled back.  When the
first run of a work item finds the release absent, creates it, and then
fails (`success = false` from a download or upload error), the sanitized
tag is still among the backend's releases afterwards, and a second run of
the same item takes the already-cached branch: it succeeds without calling
`createRelease`, without downloading, and without uploading. -/
theorem c10_no_rollback (w : World) (pkg : PackageInfo) (st : RunState)
    (hlf : w.lookupFault (sanitizeTagName (pkg.name ++ "-" ++ pkg.version)) = none)
    (hcf : w.createFault (sanitizeTagName (pkg.name ++ "-" ++ pkg.version)) = none)
    (hnm : sanitizeTagName (pkg.name ++ "-" ++ pkg.version) ∉ st.backend.releases)
    (hfail : (cachePackage w pkg true st).1 = .ok false) :
    sanitizeTagName (pkg.name ++ "-" ++ pkg.version) ∈
        (cachePackage w pkg true st).2.backend.releases ∧
      (cachePackage w pkg true (cachePackage w pkg true st).2).1 = .ok true ∧
      countEvents isApiCreate
          (cachePackage w pkg true (cachePackage w pkg true st).2).2.events =
        countEvents isApiCreate (cachePackage w pkg true st).2.events ∧
      countEvents isHttpGet
          (cachePackage w pkg true (cachePackage w pkg true st).2).2.events =
        countEvents isHttpGet (cachePackage w pkg true st).2.events ∧
      countEvents isApiUpload
          (cachePackage w pkg true (cachePackage w pkg true st).2).2.events =
        countEvents isApiUpload (cachePackage w pkg true st).2.events := by
  have hmem : sanitizeTagName (pkg.name ++ "-" ++ pkg.version) ∈
      (cachePackage w pkg true st).2.backend.releases := by
    rw [cachePackage_creates w pkg st hlf hcf hnm]
    exact List.mem_cons_self _ _
  have hsec := cachePackage_exists_branch w pkg true (cachePackage w pkg true st).2 hlf
    (by simpa using hmem)
  rw [hsec]
  refine ⟨hmem, rfl, ?_, ?_, ?_⟩ <;>
    simp [countEvents, List.filter_append, List.filter_cons, isApiCreate, isHttpGet,
      isApiUpload]

/-- C10 witness: deploy mode, downloads all fail with 500 — the first run
of the left-pad item reports failure yet creates the release; the second
run reports success with no creation, download or upload events added. -/
theorem c10_no_rollback_witness :
    sanitizeTagName ("left-pad" ++ "-" ++ "1.3.0") ∈
        (cachePackage (faultFreeWorld badServer) leftPadItem true
          emptyState).2.backend.releases ∧
      (cachePackage (faultFreeWorld badServer) leftPadItem true
          (cachePackage (faultFreeWorld badServer) leftPadItem true emptyState).2).1 =
        .ok true ∧
      countEvents isApiCreate
          (cachePackage (faultFreeWorld badServer) leftPadItem true
            (cachePackage (faultFreeWorld badServer) leftPadItem true
              emptyState).2).2.events =
        countEvents isApiCreate
          (cachePackage (faultFreeWorld badServer) leftPadItem true emptyState).2.events ∧
      countEvents isHttpGet
          (cachePackage (faultFreeWorld badServer) leftPadItem true
            (cachePackage (faultFreeWorld badServer) leftPadItem true
              emptyState).2).2.events =
        countEvents isHttpGet
          (cachePackage (faultFreeWorld badServer) leftPadItem true emptyState).2.events ∧
      countEvents isApiUpload
          (cachePackage (faultFreeWorld badServer) leftPadItem true
            (cachePackage (faultFreeWorld badServer) leftPadItem true
              emptyState).2).2.events =
        countEvents isApiUpload
          (cachePackage (faultFreeWorld badServer) leftPadItem true emptyState).2.events :=
  c10_no_rollback (faultFreeWorld badServer) leftPadItem emptyState rfl rfl
    (by simp [emptyState]) rfl
